import Mathlib

/-!
Verification of the sprachli compile/execute pipeline (bytecode compiler,
binary codec, instruction decoder, operand stack, virtual machine) against
its natural-language specification.  The Rust sources are embedded shallowly:
pure functions become Lean functions, stateful code becomes explicit state
passing, machine integers become `Nat`/`Int` with explicit `% 2^w` at the
points where the source casts (`as u8`, `as u16`), fallible code returns
`Option`/`Except`, and Rust panics (failed `assert!`, `todo!()`, slice
index out of range, integer overflow) are modelled by an explicit `panic`
outcome distinct from returned errors.

Strings are modelled as their UTF-8 byte sequences (`List Nat`), which is
exactly what a Rust `&str`/`String` is: a byte buffer with a validity
invariant; `std::str::from_utf8` is a validity check that returns a view of
the same bytes.  Numbers appear in two roles mirroring the two crates
involved: in the codec/constant-pool (`bigdecimal::BigDecimal` values are
written as their canonical base-10 text and parsed back) a number constant
is modelled by its canonical byte text, and in the virtual machine
(arithmetic on arbitrary-precision decimals) values are modelled by `ℚ`.
The `bigdecimal`/`num-bigint` libraries themselves are external
collaborators of the program (spec §1 places the numeric library out of
scope), so only the facets the program relies on are modelled.
-/

namespace Sprachli

/-! ## Instruction model

From `src/ast/expressions.rs` (the operator enums, `#[repr(u8)]` with
implicit discriminants starting at 0, in declaration order) and
`src/bytecode/instruction.rs` (`Instruction`, `InlineConstant`, `Offset`).
The `Instruction` variant set is the one matched by `Vm::call` in
`src/vm/mod.rs` and encoded by `src/compiler/writer.rs`: load/store for
locals, named globals and struct fields, plus the stack-management and jump
instructions. -/

inductive UnaryOperator where
  | negate
  | not
deriving DecidableEq, Repr

inductive BinaryOperator where
  | multiply
  | divide
  | modulo
  | add
  | subtract
  | rightShift
  | leftShift
  | bitAnd
  | bitXor
  | bitOr
  | equals
  | notEquals
  | greater
  | greaterEquals
  | less
  | lessEquals
deriving DecidableEq, Repr

/-- Rust `#[derive(IntoPrimitive)]` for `UnaryOperator`: discriminants 0, 1. -/
def UnaryOperator.toByte : UnaryOperator → Nat
  | .negate => 0
  | .not => 1

/-- Rust `#[derive(TryFromPrimitive)]` for `UnaryOperator`. -/
def unaryOperatorOfByte : Nat → Option UnaryOperator
  | 0 => some .negate
  | 1 => some .not
  | _ => none

/-- Rust `#[derive(IntoPrimitive)]` for `BinaryOperator`: discriminants 0..15 in
declaration order. -/
def BinaryOperator.toByte : BinaryOperator → Nat
  | .multiply => 0
  | .divide => 1
  | .modulo => 2
  | .add => 3
  | .subtract => 4
  | .rightShift => 5
  | .leftShift => 6
  | .bitAnd => 7
  | .bitXor => 8
  | .bitOr => 9
  | .equals => 10
  | .notEquals => 11
  | .greater => 12
  | .greaterEquals => 13
  | .less => 14
  | .lessEquals => 15

/-- Rust `#[derive(TryFromPrimitive)]` for `BinaryOperator`. -/
def binaryOperatorOfByte : Nat → Option BinaryOperator
  | 0 => some .multiply
  | 1 => some .divide
  | 2 => some .modulo
  | 3 => some .add
  | 4 => some .subtract
  | 5 => some .rightShift
  | 6 => some .leftShift
  | 7 => some .bitAnd
  | 8 => some .bitXor
  | 9 => some .bitOr
  | 10 => some .equals
  | 11 => some .notEquals
  | 12 => some .greater
  | 13 => some .greaterEquals
  | 14 => some .less
  | 15 => some .lessEquals
  | _ => none

inductive InlineConstant where
  | unit
  | bool (b : Bool)
deriving DecidableEq, Repr

inductive Offset where
  | forward (n : Nat)
  | backward (n : Nat)
deriving DecidableEq, Repr

inductive Instruction where
  | constant (index : Nat)
  | inlineConstant (c : InlineConstant)
  | unary (op : UnaryOperator)
  | binary (op : BinaryOperator)
  | loadLocal (index : Nat)
  | storeLocal (index : Nat)
  | loadNamed (index : Nat)
  | storeNamed (index : Nat)
  | loadPositionalField (index : Nat)
  | storePositionalField (index : Nat)
  | loadNamedField (index : Nat)
  | storeNamedField (index : Nat)
  | pop
  | popScope (depth : Nat)
  | call (arity : Nat)
  | ret
  | jump (offset : Offset)
  | jumpIf (offset : Offset)
deriving DecidableEq, Repr

/-- Rust `Instruction::stack_effect` (`sprachli_bytecode/src/instruction.rs`):
the signed stack delta of one instruction, `none` for `PopScope` whose
effect is dynamic. -/
def Instruction.stackEffect : Instruction → Option Int
  | .constant _ => some 1
  | .inlineConstant _ => some 1
  | .unary _ => some 0
  | .binary _ => some (-1)
  | .loadLocal _ => some 1
  | .storeLocal _ => some (-1)
  | .loadNamed _ => some 1
  | .storeNamed _ => some (-1)
  | .loadPositionalField _ => some 1
  | .storePositionalField _ => some (-1)
  | .loadNamedField _ => some 1
  | .storeNamedField _ => some (-1)
  | .pop => some (-1)
  | .popScope _ => none
  | .call arity => some (-(arity : Int))
  | .ret => some (-1)
  | .jump _ => some 0
  | .jumpIf _ => some (-1)

/-- Modelled from the spec: the opcode byte assignment of the tested
generation of the crate.  The snapshot's `src/bytecode/instruction.rs`
keeps an older `Opcode` enum (`Constant = 1`, with the comment that zero is
reserved for intentionally invalid opcodes) that lacks the store opcodes,
while the decoder in `src/bytecode/mod.rs` and the writer in
`src/compiler/writer.rs` also handle `StoreLocal`/`StoreNamed` (decoder)
and the four struct-field opcodes (writer).  The enum those two files were
written against is missing from the tree; following the spec (§8: opcode 0
is never emitted; §4.D: opcode numbering is fixed) and the surviving enum's
explicit `Constant = 1` base, opcodes are numbered from 1 in the order of
the decoder's match arms, with the four struct-field opcodes (which no
compile path reaches, spec §9) placed after the opcodes the decoder knows. -/
def opcodeByte : Instruction → Nat
  | .constant _ => 1
  | .inlineConstant .unit => 2
  | .inlineConstant (.bool true) => 3
  | .inlineConstant (.bool false) => 4
  | .pop => 5
  | .unary _ => 6
  | .binary _ => 7
  | .loadLocal _ => 8
  | .loadNamed _ => 9
  | .storeLocal _ => 10
  | .storeNamed _ => 11
  | .popScope _ => 12
  | .call _ => 13
  | .ret => 14
  | .jump (.forward _) => 15
  | .jump (.backward _) => 16
  | .jumpIf (.forward _) => 17
  | .jumpIf (.backward _) => 18
  | .loadPositionalField _ => 19
  | .storePositionalField _ => 20
  | .loadNamedField _ => 21
  | .storeNamedField _ => 22

/-! ## Runtime values and errors

From `src/vm/error.rs` and the value model used by `src/vm/mod.rs`:
runtime values are unit, bool, or a boxed number / string / function.
Numbers are `bigdecimal::BigDecimal`, modelled by `ℚ` (a `BigDecimal` is
exactly a rational with a power-of-ten denominator; the claims settled here
use only integer predicates, conversions and shifts, which agree).  A
function value carries its arity and its instruction-stream bytes
(`bytecode::Function`: `arity` plus an `InstructionSequence` borrowed from
the module). -/

inductive BytecodeError where
  | parseError
  | invalidConstantType
  | invalidStringConstant
  | invalidNumberConstant
  | invalidOpcode (b : Nat)
  | incompleteInstruction (opcode : Nat)
  | invalidInstruction (opcode : Nat)
  | invalidConstantRef (index len : Nat)
  | invalidConstantRefType (index : Nat)
  | invalidStructType
deriving DecidableEq, Repr

inductive InternalError where
  | invalidConstant (index len : Nat)
  | invalidLocal (index : Nat)
  | invalidConstantType (index : Nat) (expected : String)
  | invalidNumberLiteral
  | invalidStringLiteral
  | emptyStack
  | invalidBytecode (e : BytecodeError)
  | invalidJump
deriving DecidableEq, Repr

inductive VmError where
  | nameError (name : List Nat)
  | typeError (expected : String)
  | valueError (msg : String)
  | unsupported (construct : String)
  | internal (e : InternalError)
deriving DecidableEq, Repr

structure VFunction where
  arity : Nat
  body : List Nat
deriving DecidableEq, Repr

/-- Rust `bytecode::Constant` as seen by the running vm: a parsed module's
constant pool entry (`src/bytecode/mod.rs`). -/
inductive VConstant where
  | number (n : ℚ)
  | string (s : List Nat)
  | function (f : VFunction)
deriving DecidableEq, Repr

inductive Value where
  | unit
  | bool (b : Bool)
  | number (n : ℚ)
  | string (s : List Nat)
  | function (f : VFunction)
deriving DecidableEq, Repr

/-- Rust `Value::constant`: wrap a module constant as a runtime value. -/
def Value.constant : VConstant → Value
  | .number n => .number n
  | .string s => .string s
  | .function f => .function f

/-- Rust `Value::as_bool` (`src/vm/value.rs`). -/
def Value.asBool : Value → Except VmError Bool
  | .bool b => .ok b
  | _ => .error (.typeError "bool")

/-- Rust `Value::as_number` (`src/vm/value.rs`; the error text in the source
says "bool", an apparent copy-paste slip kept here verbatim). -/
def Value.asNumber : Value → Except VmError ℚ
  | .number n => .ok n
  | _ => .error (.typeError "bool")

/-- Rust `Value::as_function` (`src/vm/value.rs`). -/
def Value.asFunction : Value → Except VmError VFunction
  | .function f => .ok f
  | _ => .error (.typeError "function")

/-! ## The operand stack

From `src/vm/stack.rs`.  `Stack` is a growable vector of values; it is
modelled as a `List Value` whose head is the bottom of the stack and whose
last element is the top (so `Vec::push` appends at the end).  Mutating
methods become functions returning the drained items and the new stack. -/

abbrev Stack := List Value

namespace Stack

/-- Rust `Stack::checked_index`: validate an optional index against the current
length, failing with `EmptyStack` when absent or out of range. -/
def checkedIndex (s : Stack) (index : Option Nat) : Except VmError Nat :=
  match index with
  | some i => if i < s.length then .ok i else .error (.internal .emptyStack)
  | none => .error (.internal .emptyStack)

/-- Rust `Stack::pop`: remove and return the top value. -/
def pop (s : Stack) : Except VmError (Value × Stack) :=
  match s.getLast? with
  | some v => .ok (v, s.dropLast)
  | none => .error (.internal .emptyStack)

/-- Rust `Stack::pop_deep`: remove the item at absolute index `index`, shifting
everything above it down (`Vec::remove`). -/
def popDeep (s : Stack) (index : Nat) : Except VmError (Value × Stack) :=
  match s.checkedIndex (some index) with
  | .error e => .error e
  | .ok i =>
    match s.get? i with
    | some v => .ok (v, s.take i ++ s.drop (i + 1))
    | none => .error (.internal .emptyStack)

/-- Rust `Stack::pop_multiple`: drain the top `count` items in insertion order
(`Vec::drain(len - count ..)`). -/
def popMultiple (s : Stack) (count : Nat) : Except VmError (List Value × Stack) :=
  if count ≤ s.length then
    .ok (s.drop (s.length - count), s.take (s.length - count))
  else
    .error (.internal .emptyStack)

/-- Rust `Stack::pop_all_under`: drain the items at indices `index .. len - 1`
(exclusive end, `Vec::drain(index .. len - 1)`), leaving the top value in
place above the prefix `s[0 .. index]`. -/
def popAllUnder (s : Stack) (index : Nat) : Except VmError (List Value × Stack) :=
  match s.checkedIndex (some index) with
  | .error e => .error e
  | .ok i => .ok ((s.take (s.length - 1)).drop i, s.take i ++ s.drop (s.length - 1))

end Stack

/-! ## The instruction decoder

From `src/bytecode/mod.rs` (`InstructionIter`): a cursor over the function
body bytes that yields decoded instructions while tracking the byte offset,
plus the `raw_jump` cursor reset.  `raw_jump` adjusts `offset` with
unchecked `+=` / `-=` and then re-slices `body[offset..]`; in Rust a
backward underflow or a forward offset beyond the body length makes the
slice indexing (or the subtraction) panic, so those cases are modelled by
an explicit `panic` result — note that `raw_jump` cannot *return* an
error. -/

structure Iter where
  body : List Nat
  offset : Nat
deriving DecidableEq, Repr

namespace Iter

/-- Rust `InstructionIter::advance`: take the next byte, bumping the offset. -/
def advance (it : Iter) : Option (Nat × Iter) :=
  match it.body.get? it.offset with
  | some b => some (b, ⟨it.body, it.offset + 1⟩)
  | none => none

/-- Rust `InstructionIter::parameter`: the one-byte parameter of `opcode`,
failing with `IncompleteInstruction` at the end of the body. -/
def parameter (it : Iter) (opcode : Nat) : Except BytecodeError (Nat × Iter) :=
  match it.advance with
  | some (p, it') => .ok (p, it')
  | none => .error (.incompleteInstruction opcode)

/-- Rust `<InstructionIter as Iterator>::next`: decode one instruction.  Opcode
bytes follow `opcodeByte`; byte 0 and bytes not assigned to any opcode fail
with `InvalidOpcode`, and an out-of-range unary/binary operator parameter
fails with `InvalidInstruction`.  The struct-field opcodes are not known to
this decoder. -/
def next (it : Iter) : Option (Except BytecodeError Instruction × Iter) :=
  match it.advance with
  | none => none
  | some (b, it') =>
    match b with
    | 1 =>
      some (match it'.parameter b with
            | .ok (p, it2) => (.ok (.constant p), it2)
            | .error e => (.error e, it'))
    | 2 => some (.ok (.inlineConstant .unit), it')
    | 3 => some (.ok (.inlineConstant (.bool true)), it')
    | 4 => some (.ok (.inlineConstant (.bool false)), it')
    | 5 => some (.ok .pop, it')
    | 6 =>
      some (match it'.parameter b with
            | .ok (p, it2) =>
              match unaryOperatorOfByte p with
              | some op => (.ok (.unary op), it2)
              | none => (.error (.invalidInstruction b), it2)
            | .error e => (.error e, it'))
    | 7 =>
      some (match it'.parameter b with
            | .ok (p, it2) =>
              match binaryOperatorOfByte p with
              | some op => (.ok (.binary op), it2)
              | none => (.error (.invalidInstruction b), it2)
            | .error e => (.error e, it'))
    | 8 =>
      some (match it'.parameter b with
            | .ok (p, it2) => (.ok (.loadLocal p), it2)
            | .error e => (.error e, it'))
    | 9 =>
      some (match it'.parameter b with
            | .ok (p, it2) => (.ok (.loadNamed p), it2)
            | .error e => (.error e, it'))
    | 10 =>
      some (match it'.parameter b with
            | .ok (p, it2) => (.ok (.storeLocal p), it2)
            | .error e => (.error e, it'))
    | 11 =>
      some (match it'.parameter b with
            | .ok (p, it2) => (.ok (.storeNamed p), it2)
            | .error e => (.error e, it'))
    | 12 =>
      some (match it'.parameter b with
            | .ok (p, it2) => (.ok (.popScope p), it2)
            | .error e => (.error e, it'))
    | 13 =>
      some (match it'.parameter b with
            | .ok (p, it2) => (.ok (.call p), it2)
            | .error e => (.error e, it'))
    | 14 => some (.ok .ret, it')
    | 15 =>
      some (match it'.parameter b with
            | .ok (p, it2) => (.ok (.jump (.forward p)), it2)
            | .error e => (.error e, it'))
    | 16 =>
      some (match it'.parameter b with
            | .ok (p, it2) => (.ok (.jump (.backward p)), it2)
            | .error e => (.error e, it'))
    | 17 =>
      some (match it'.parameter b with
            | .ok (p, it2) => (.ok (.jumpIf (.forward p)), it2)
            | .error e => (.error e, it'))
    | 18 =>
      some (match it'.parameter b with
            | .ok (p, it2) => (.ok (.jumpIf (.backward p)), it2)
            | .error e => (.error e, it'))
    | _ => some (.error (.invalidOpcode b), it')

end Iter

/-- Result of `InstructionIter::raw_jump`. -/
inductive JumpResult where
  | ok (it : Iter)
  | panic
deriving DecidableEq, Repr

/-- Rust `InstructionIter::raw_jump`: reset the cursor to `offset ± delta`.
There is no bounds check in the source; `offset -= delta` underflows and
`&body[offset..]` with `offset > body.len()` is out of range, both of
which panic.  The function's `Result` error case is never produced. -/
def Iter.rawJump (it : Iter) (o : Offset) : JumpResult :=
  match o with
  | .forward d =>
    if it.offset + d ≤ it.body.length then .ok ⟨it.body, it.offset + d⟩ else .panic
  | .backward d =>
    if d ≤ it.offset then .ok ⟨it.body, it.offset - d⟩ else .panic

/-! ## The virtual machine

From `src/vm/mod.rs`.  The module is fixed for the run; the operand stack
is threaded explicitly.  `Res` is the outcome of an interpreter step:
normal result, returned error, Rust panic (failed `assert!`, `todo!()`,
out-of-range slice), or fuel exhaustion (`diverge`), the last standing for
an execution that takes more steps than the supplied fuel. -/

inductive Res (α : Type) where
  | ok (a : α)
  | err (e : VmError)
  | panic
  | diverge
deriving DecidableEq, Repr

/-- The vm's view of a parsed module (`src/bytecode/mod.rs`): a constant
pool and the global map from name strings to constant indices (modelled as
an association list in insertion order). -/
structure VModule where
  constants : List VConstant
  globals : List (List Nat × Nat)
deriving DecidableEq, Repr

/-- Rust `Module::constant`. -/
def VModule.constant (m : VModule) (index : Nat) : Option VConstant :=
  m.constants.get? index

/-- Rust `Module::global`: resolve a name through the globals map and the
constant pool. -/
def VModule.global (m : VModule) (name : List Nat) : Option VConstant :=
  match m.globals.find? (fun p => p.1 = name) with
  | some p => m.constant p.2
  | none => none

/-- Rust `Vm::get_constant`. -/
def getConstant (m : VModule) (index : Nat) : Except VmError VConstant :=
  match m.constant index with
  | some c => .ok c
  | none => .error (.internal (.invalidConstant index m.constants.length))

/-- Rust `Vm::get_global`. -/
def getGlobal (m : VModule) (name : List Nat) : Except VmError VConstant :=
  match m.global name with
  | some c => .ok c
  | none => .error (.nameError name)

/-- Rust `Vm::constant`: push constant `index`. -/
def vmConstant (m : VModule) (st : Stack) (index : Nat) : Except VmError Stack :=
  match getConstant m index with
  | .error e => .error e
  | .ok c => .ok (st ++ [Value.constant c])

/-- Rust `Vm::inline_constant`. -/
def inlineValue : InlineConstant → Value
  | .unit => .unit
  | .bool b => .bool b

/-- Rust `Vm::load_local`: clone `stack[offset + index]` and push it. -/
def vmLoadLocal (offset index : Nat) (st : Stack) : Except VmError Stack :=
  match st.get? (offset + index) with
  | some v => .ok (st ++ [v])
  | none => .error (.internal (.invalidLocal index))

/-- Rust `Vm::store_local`: pop, then write into `stack[offset + index]`. -/
def vmStoreLocal (offset index : Nat) (st : Stack) : Except VmError Stack :=
  match st.pop with
  | .error e => .error e
  | .ok (v, st') =>
    if offset + index < st'.length then .ok (st'.set (offset + index) v)
    else .error (.internal (.invalidLocal index))

/-- Rust `Vm::load_named`: constant `index` must be a string; push the global it
names. -/
def vmLoadNamed (m : VModule) (st : Stack) (index : Nat) : Except VmError Stack :=
  match getConstant m index with
  | .error e => .error e
  | .ok (.string name) =>
    match getGlobal m name with
    | .error e => .error e
    | .ok v => .ok (st ++ [Value.constant v])
  | .ok _ => .error (.internal (.invalidConstantType index "string"))

/-- Rust `Vm::load_named_by_name`. -/
def vmLoadNamedByName (m : VModule) (st : Stack) (name : List Nat) : Except VmError Stack :=
  match getGlobal m name with
  | .error e => .error e
  | .ok v => .ok (st ++ [Value.constant v])

/-- Rust `Vm::unary`. -/
def vmUnary (op : UnaryOperator) (st : Stack) : Except VmError Stack :=
  match st.pop with
  | .error e => .error e
  | .ok (right, st') =>
    match op with
    | .negate =>
      match right.asNumber with
      | .ok n => .ok (st' ++ [.number (-n)])
      | .error e => .error e
    | .not =>
      match right.asBool with
      | .ok b => .ok (st' ++ [.bool (!b)])
      | .error e => .error e

/-! ### Binary operations

From `Vm::binary` in `src/vm/mod.rs`.  The two operands are drained in
insertion order (`left` below `right`).  `to_integer` requires an
integer-valued decimal (`BigDecimal::is_integer`, i.e. denominator 1) and
yields its big integer; `to_isize` additionally requires the value to fit
a 64-bit machine signed integer.  Shifts follow `num-bigint`: shifting by
a negative signed amount shifts in the opposite direction, and a right
shift rounds towards negative infinity.  `bigdecimal` division and
remainder panic on a zero divisor; division is modelled as exact rational
division (the library truncates to a fixed precision — no claim settled
here touches inexact quotients), and the remainder is the truncated-
division remainder. -/

def toInteger (q : ℚ) : Except VmError ℤ :=
  if q.den = 1 then .ok q.num else .error (.typeError "integral number value")

/-- The value fits a 64-bit machine signed integer (`isize`). -/
def fitsIsize (q : ℚ) : Prop :=
  -(2 ^ 63) ≤ q.num ∧ q.num < 2 ^ 63

instance (q : ℚ) : Decidable (fitsIsize q) := by
  unfold fitsIsize
  infer_instance

def toIsize (q : ℚ) : Except VmError ℤ :=
  if q.den = 1 then
    if fitsIsize q then .ok q.num
    else .error (.typeError "small integral number value")
  else .error (.typeError "integral number value")

/-- Rust `BigInt << isize` (num-bigint). -/
def bigShl (a : ℤ) (s : ℤ) : ℤ :=
  if 0 ≤ s then a * 2 ^ s.toNat else Int.fdiv a (2 ^ (-s).toNat)

/-- Rust `BigInt >> isize` (num-bigint): rounds towards negative infinity. -/
def bigShr (a : ℤ) (s : ℤ) : ℤ :=
  if 0 ≤ s then Int.fdiv a (2 ^ s.toNat) else a * 2 ^ (-s).toNat

/-- Truncation towards zero, as `BigDecimal::with_scale(0, Down)`. -/
def ratTrunc (q : ℚ) : ℤ :=
  if 0 ≤ q then q.floor else q.ceil

/-- Bitwise NOT on arbitrary-precision integers (two's complement). -/
def intNot (a : ℤ) : ℤ := -a - 1

/-- Rust `BigInt & BigInt` (num-bigint two's-complement semantics). -/
def intAnd (a b : ℤ) : ℤ :=
  if 0 ≤ a then
    if 0 ≤ b then (Nat.land a.toNat b.toNat : ℕ)
    else (Nat.ldiff a.toNat (intNot b).toNat : ℕ)
  else
    if 0 ≤ b then (Nat.ldiff b.toNat (intNot a).toNat : ℕ)
    else intNot (Nat.lor (intNot a).toNat (intNot b).toNat : ℕ)

/-- Rust `BigInt | BigInt` (num-bigint two's-complement semantics). -/
def intOr (a b : ℤ) : ℤ :=
  if 0 ≤ a then
    if 0 ≤ b then (Nat.lor a.toNat b.toNat : ℕ)
    else intNot (Nat.ldiff (intNot b).toNat a.toNat : ℕ)
  else
    if 0 ≤ b then intNot (Nat.ldiff (intNot a).toNat b.toNat : ℕ)
    else intNot (Nat.land (intNot a).toNat (intNot b).toNat : ℕ)

/-- Rust `BigInt ^ BigInt` (num-bigint two's-complement semantics). -/
def intXor (a b : ℤ) : ℤ :=
  if 0 ≤ a then
    if 0 ≤ b then (Nat.xor a.toNat b.toNat : ℕ)
    else intNot (Nat.xor a.toNat (intNot b).toNat : ℕ)
  else
    if 0 ≤ b then intNot (Nat.xor (intNot a).toNat b.toNat : ℕ)
    else (Nat.xor (intNot a).toNat (intNot b).toNat : ℕ)

/-- The `equality_comparison` closure: unit equals unit, bools, numbers and
strings compare by value, functions by reference identity (function values
always come from the deduplicated constant pool, so reference identity is
modelled as structural identity), every cross-type pair compares unequal. -/
def valueEq (l r : Value) : Bool :=
  match l, r with
  | .unit, .unit => true
  | .bool a, .bool b => a == b
  | .number a, .number b => a == b
  | .string a, .string b => a == b
  | .function a, .function b => a == b
  | _, _ => false

/-- The match over `BinaryOperator` in `Vm::binary`, applied to the two
drained operands. -/
def binaryCompute (op : BinaryOperator) (left right : Value) : Res Value :=
  match op with
  | .multiply =>
    match left.asNumber with
    | .error e => .err e
    | .ok a =>
      match right.asNumber with
      | .error e => .err e
      | .ok b => .ok (.number (a * b))
  | .divide =>
    match left.asNumber with
    | .error e => .err e
    | .ok a =>
      match right.asNumber with
      | .error e => .err e
      | .ok b => if b = 0 then .panic else .ok (.number (a / b))
  | .modulo =>
    match left.asNumber with
    | .error e => .err e
    | .ok a =>
      match right.asNumber with
      | .error e => .err e
      | .ok b => if b = 0 then .panic else .ok (.number (a - b * (ratTrunc (a / b) : ℚ)))
  | .add =>
    match left.asNumber with
    | .error e => .err e
    | .ok a =>
      match right.asNumber with
      | .error e => .err e
      | .ok b => .ok (.number (a + b))
  | .subtract =>
    match left.asNumber with
    | .error e => .err e
    | .ok a =>
      match right.asNumber with
      | .error e => .err e
      | .ok b => .ok (.number (a - b))
  | .rightShift =>
    match left.asNumber with
    | .error e => .err e
    | .ok a =>
      match toInteger a with
      | .error e => .err e
      | .ok ai =>
        match right.asNumber with
        | .error e => .err e
        | .ok b =>
          match toIsize b with
          | .error e => .err e
          | .ok bi => .ok (.number (bigShr ai bi : ℚ))
  | .leftShift =>
    match left.asNumber with
    | .error e => .err e
    | .ok a =>
      match toInteger a with
      | .error e => .err e
      | .ok ai =>
        match right.asNumber with
        | .error e => .err e
        | .ok b =>
          match toIsize b with
          | .error e => .err e
          | .ok bi => .ok (.number (bigShl ai bi : ℚ))
  | .bitAnd =>
    match left.asNumber with
    | .error e => .err e
    | .ok a =>
      match toInteger a with
      | .error e => .err e
      | .ok ai =>
        match right.asNumber with
        | .error e => .err e
        | .ok b =>
          match toInteger b with
          | .error e => .err e
          | .ok bi => .ok (.number (intAnd ai bi : ℚ))
  | .bitXor =>
    match left.asNumber with
    | .error e => .err e
    | .ok a =>
      match toInteger a with
      | .error e => .err e
      | .ok ai =>
        match right.asNumber with
        | .error e => .err e
        | .ok b =>
          match toInteger b with
          | .error e => .err e
          | .ok bi => .ok (.number (intXor ai bi : ℚ))
  | .bitOr =>
    match left.asNumber with
    | .error e => .err e
    | .ok a =>
      match toInteger a with
      | .error e => .err e
      | .ok ai =>
        match right.asNumber with
        | .error e => .err e
        | .ok b =>
          match toInteger b with
          | .error e => .err e
          | .ok bi => .ok (.number (intOr ai bi : ℚ))
  | .equals => .ok (.bool (valueEq left right == true))
  | .notEquals => .ok (.bool (valueEq left right == false))
  | .greater =>
    match left.asNumber with
    | .error e => .err e
    | .ok a =>
      match right.asNumber with
      | .error e => .err e
      | .ok b => .ok (.bool (decide (a > b)))
  | .greaterEquals =>
    match left.asNumber with
    | .error e => .err e
    | .ok a =>
      match right.asNumber with
      | .error e => .err e
      | .ok b => .ok (.bool (decide (a ≥ b)))
  | .less =>
    match left.asNumber with
    | .error e => .err e
    | .ok a =>
      match right.asNumber with
      | .error e => .err e
      | .ok b => .ok (.bool (decide (a < b)))
  | .lessEquals =>
    match left.asNumber with
    | .error e => .err e
    | .ok a =>
      match right.asNumber with
      | .error e => .err e
      | .ok b => .ok (.bool (decide (a ≤ b)))

/-- Rust `Vm::binary`: drain the top two values and combine them.  The double
`ops.next().unwrap()` in the source panics if the drain yields fewer than
two items (unreachable, since `pop_multiple(2)` was checked). -/
def vmBinary (op : BinaryOperator) (st : Stack) : Res Stack :=
  match st.popMultiple 2 with
  | .error e => .err e
  | .ok (ops, rest) =>
    match ops with
    | [left, right] =>
      match binaryCompute op left right with
      | .ok v => .ok (rest ++ [v])
      | .err e => .err e
      | .panic => .panic
      | .diverge => .diverge
    | _ => .panic

/-! ### Call dispatch and the execution loop

From `Vm::call` in `src/vm/mod.rs` (lines 235-290).  The prologue computes
the frame offset `len - arity - 1` through `checked_sub` and
`checked_index` (failing `EmptyStack` on underflow), removes the callee
from under the arguments with `pop_deep`, requires it to be a function and
checks the declared arity (failing `ValueError` on mismatch).  The body is
then decoded instruction by instruction; after the loop, `assert_eq!`
requires the stack height to be exactly `offset + arity + 1` (a failed
assert is a panic), and the parameters are drained from under the result.
Execution is fuel-indexed: `Res.diverge` means the fuel ran out. -/

def callDispatch (st : Stack) (arity : Nat) : Except VmError (VFunction × Nat × Stack) :=
  match st.checkedIndex (if arity + 1 ≤ st.length then some (st.length - (arity + 1)) else none) with
  | .error e => .error e
  | .ok offset =>
    match st.popDeep offset with
    | .error e => .error e
    | .ok (v, st') =>
      match v.asFunction with
      | .error e => .error e
      | .ok f =>
        if arity ≠ f.arity then
          .error (.valueError ("wrong parameter number; expected " ++ toString f.arity
            ++ ", got " ++ toString arity))
        else
          .ok (f, offset, st')

/-- The code after the instruction loop in `Vm::call`: the height assert
followed by draining the parameters from under the return value. -/
def afterBody (offset arity : Nat) (st : Stack) : Res Stack :=
  if st.length = offset + arity + 1 then
    match st.popAllUnder offset with
    | .ok (_, st') => .ok st'
    | .error e => .err e
  else
    .panic

mutual

def vmCall (fuel : Nat) (m : VModule) (st : Stack) (arity : Nat) : Res Stack :=
  match fuel with
  | 0 => .diverge
  | fuel + 1 =>
    match callDispatch st arity with
    | .error e => .err e
    | .ok (f, offset, st') => vmLoop fuel m offset arity ⟨f.body, 0⟩ st'

def vmLoop (fuel : Nat) (m : VModule) (offset arity : Nat) (it : Iter) (st : Stack) :
    Res Stack :=
  match fuel with
  | 0 => .diverge
  | fuel + 1 =>
    match it.next with
    | none => afterBody offset arity st
    | some (.error e, _) => .err (.internal (.invalidBytecode e))
    | some (.ok ins, it') =>
      match ins with
      | .constant i =>
        match vmConstant m st i with
        | .ok st2 => vmLoop fuel m offset arity it' st2
        | .error e => .err e
      | .inlineConstant c => vmLoop fuel m offset arity it' (st ++ [inlineValue c])
      | .unary op =>
        match vmUnary op st with
        | .ok st2 => vmLoop fuel m offset arity it' st2
        | .error e => .err e
      | .binary op =>
        match vmBinary op st with
        | .ok st2 => vmLoop fuel m offset arity it' st2
        | .err e => .err e
        | .panic => .panic
        | .diverge => .diverge
      | .loadLocal i =>
        match vmLoadLocal offset i st with
        | .ok st2 => vmLoop fuel m offset arity it' st2
        | .error e => .err e
      | .storeLocal i =>
        match vmStoreLocal offset i st with
        | .ok st2 => vmLoop fuel m offset arity it' st2
        | .error e => .err e
      | .loadNamed i =>
        match vmLoadNamed m st i with
        | .ok st2 => vmLoop fuel m offset arity it' st2
        | .error e => .err e
      | .storeNamed _ => .err (.unsupported "Tried to mutate a binding in the global scope")
      | .loadPositionalField _ => .panic
      | .storePositionalField _ => .panic
      | .loadNamedField _ => .panic
      | .storeNamedField _ => .panic
      | .pop =>
        match st.pop with
        | .ok (_, st2) => vmLoop fuel m offset arity it' st2
        | .error e => .err e
      | .popScope depth =>
        match st.popAllUnder (offset + depth) with
        | .ok (_, st2) => vmLoop fuel m offset arity it' st2
        | .error e => .err e
      | .call a =>
        match vmCall fuel m st a with
        | .ok st2 => vmLoop fuel m offset arity it' st2
        | .err e => .err e
        | .panic => .panic
        | .diverge => .diverge
      | .ret =>
        match st.popAllUnder (offset + arity) with
        | .ok (_, st2) => afterBody offset arity st2
        | .error e => .err e
      | .jump o =>
        match it'.rawJump o with
        | .ok it2 => vmLoop fuel m offset arity it2 st
        | .panic => .panic
      | .jumpIf o =>
        match st.pop with
        | .error e => .err e
        | .ok (v, st2) =>
          match v.asBool with
          | .error e => .err e
          | .ok true =>
            match it'.rawJump o with
            | .ok it2 => vmLoop fuel m offset arity it2 st2
            | .panic => .panic
          | .ok false => vmLoop fuel m offset arity it' st2

end

/-- UTF-8 bytes of an ASCII Lean string; a convenience for writing the
concrete byte strings appearing in modules under test. -/
def asciiBytes (s : String) : List Nat :=
  s.data.map Char.toNat

/-- Rust `Vm::run`: resolve and push the global `main`, invoke `call(0)`, and
pop the program result. -/
def vmRun (fuel : Nat) (m : VModule) : Res Value :=
  match vmLoadNamedByName m [] (asciiBytes "main") with
  | .error e => .err e
  | .ok st =>
    match vmCall fuel m st 0 with
    | .ok st' =>
      match st'.pop with
      | .ok (v, _) => .ok v
      | .error e => .err e
    | .err e => .err e
    | .panic => .panic
    | .diverge => .diverge

/-! ## The compiler-side module and the binary writer

From `src/compiler/constant.rs`, `src/compiler/mod.rs` (the `Module` /
`StructType` types) and `src/compiler/writer.rs`.  A compiler constant is a
number (represented by its canonical base-10 text, which is what
`BigDecimal::to_string` produces and what the writer emits), a string (its
UTF-8 bytes), or a function of decoded instructions.  `globals` and
`struct_types` are `BTreeMap`s; they are modelled as their sorted entry
lists, which is the order the writer iterates.  All `as u16` / `as u8`
casts in the source appear as `% 65536` / `% 256`. -/

inductive CConstant where
  | number (text : List Nat)
  | string (bytes : List Nat)
  | function (arity : Nat) (body : List Instruction)
deriving DecidableEq, Repr

inductive StructType where
  | empty
  | positional (count : Nat)
  | named (members : List Nat)
deriving DecidableEq, Repr

structure CModule where
  constants : List CConstant
  globals : List (Nat × Nat)
  structTypes : List (Nat × StructType)
deriving DecidableEq, Repr

/-- Rust `u16::to_be_bytes` of `v as u16`. -/
def u16be (v : Nat) : List Nat :=
  [v % 65536 / 256, v % 256]

/-- One instruction of a function body as encoded by `writer::function`:
the opcode byte, then for parameterised opcodes the parameter cast
`as u8`. -/
def encodeInstruction : Instruction → List Nat
  | .constant i => [1, i % 256]
  | .inlineConstant .unit => [2]
  | .inlineConstant (.bool true) => [3]
  | .inlineConstant (.bool false) => [4]
  | .pop => [5]
  | .unary op => [6, op.toByte]
  | .binary op => [7, op.toByte]
  | .loadLocal i => [8, i % 256]
  | .loadNamed i => [9, i % 256]
  | .storeLocal i => [10, i % 256]
  | .storeNamed i => [11, i % 256]
  | .popScope d => [12, d % 256]
  | .call a => [13, a % 256]
  | .ret => [14]
  | .jump (.forward d) => [15, d % 256]
  | .jump (.backward d) => [16, d % 256]
  | .jumpIf (.forward d) => [17, d % 256]
  | .jumpIf (.backward d) => [18, d % 256]
  | .loadPositionalField i => [19, i % 256]
  | .storePositionalField i => [20, i % 256]
  | .loadNamedField i => [21, i % 256]
  | .storeNamedField i => [22, i % 256]

/-- The body byte vector built by `writer::function`. -/
def encodeBody : List Instruction → List Nat
  | [] => []
  | i :: rest => encodeInstruction i ++ encodeBody rest

/-- Rust `writer::header`: the magic string and the 16-bit format version 0. -/
def writeHeader : List Nat :=
  asciiBytes "sprachli" ++ u16be 0

/-- Rust `writer::constant`: kind tag (`ConstantKind`: Number 0, String 1,
Function 2), then the kind-specific payload. -/
def writeConstant : CConstant → List Nat
  | .number text => [0] ++ u16be text.length ++ text
  | .string bytes => [1] ++ u16be bytes.length ++ bytes
  | .function arity body =>
    [2] ++ u16be arity ++ u16be (encodeBody body).length ++ encodeBody body

def writeConstantList : List CConstant → List Nat
  | [] => []
  | c :: rest => writeConstant c ++ writeConstantList rest

def writeGlobalList : List (Nat × Nat) → List Nat
  | [] => []
  | (k, v) :: rest => u16be k ++ u16be v ++ writeGlobalList rest

/-- Rust `writer::struct_type` (`StructTypeKind`: Empty 0, Positional 1,
Named 2). -/
def writeStructType (name : Nat) (decl : StructType) : List Nat :=
  u16be name ++
    match decl with
    | .empty => [0]
    | .positional count => [1] ++ u16be count
    | .named members => [2] ++ u16be members.length ++ (members.map u16be).flatten

def writeStructList : List (Nat × StructType) → List Nat
  | [] => []
  | (name, decl) :: rest => writeStructType name decl ++ writeStructList rest

/-- Rust `writer::write_bytecode`: header, constants block, globals block,
structs block.  Writing into a byte vector cannot fail, so the source's
`io::Result` is always `Ok`; the function is total. -/
def writeBytecode (m : CModule) : List Nat :=
  writeHeader
    ++ (u16be m.constants.length ++ writeConstantList m.constants)
    ++ (u16be m.globals.length ++ writeGlobalList m.globals)
    ++ (u16be m.structTypes.length ++ writeStructList m.structTypes)

/-! ## The bytecode parser

From `src/bytecode/parser.rs` (nom combinators over a byte slice).  A
parser takes the input bytes and either fails or returns a value and the
remaining input.  `parse_bytecode` runs the module parser and discards the
remaining input (`Finish::finish` does not require the input to be
consumed).  `Number::parse_bytes` and `std::str::from_utf8` belong to
external libraries; they are modelled as validators that accept the byte
text unchanged (`validNumberBytes` mirrors the decimal grammar
`bigdecimal` accepts on the canonical forms the writer emits, `isUtf8` is
the standard UTF-8 validity check). -/

def ParserM (α : Type) : Type := List Nat → Option (α × List Nat)

def pPure {α : Type} (a : α) : ParserM α := fun i => some (a, i)

def pFail {α : Type} : ParserM α := fun _ => none

def pBind {α β : Type} (p : ParserM α) (f : α → ParserM β) : ParserM β := fun i =>
  match p i with
  | some (a, r) => f a r
  | none => none

instance : Monad ParserM where
  pure := pPure
  bind := pBind

/-- Rust `be_u8`. -/
def pByte : ParserM Nat := fun i =>
  match i with
  | b :: r => some (b, r)
  | [] => none

/-- Rust `be_u16`. -/
def pBeU16 : ParserM Nat := do
  let b0 ← pByte
  let b1 ← pByte
  pure (b0 * 256 + b1)

/-- Rust `nom::bytes::complete::tag`. -/
def pTag : List Nat → ParserM Unit
  | [], i => some ((), i)
  | c :: t, i =>
    match i with
    | d :: r => if d = c then pTag t r else none
    | [] => none

/-- Rust `nom::bytes::complete::take`. -/
def pTake (n : Nat) : ParserM (List Nat) := fun i =>
  if n ≤ i.length then some (i.take n, i.drop n) else none

/-- Rust `nom::multi::count`. -/
def pCount {α : Type} : Nat → ParserM α → ParserM (List α)
  | 0, _ => pPure []
  | n + 1, p => do
    let a ← p
    let rest ← pCount n p
    pure (a :: rest)

/-- ASCII digit. -/
def isDigitByte (b : Nat) : Bool :=
  decide (48 ≤ b) && decide (b ≤ 57)

/-- Modelled from the spec: `BigDecimal::parse_bytes(_, 10)` succeeds on
the number constants the pipeline writes (spec §4.D: a number constant is
the number's canonical base-10 textual form).  The canonical forms are an
optional sign, digits, and at most one decimal point. -/
def validMantissa (l : List Nat) : Bool :=
  l.all (fun c => isDigitByte c || c = 46) && decide (l.count 46 ≤ 1) && l.any isDigitByte

def validNumberBytes : List Nat → Bool
  | 43 :: r => validMantissa r
  | 45 :: r => validMantissa r
  | r => validMantissa r

/-- UTF-8 continuation byte. -/
def isContByte (b : Nat) : Bool :=
  decide (128 ≤ b) && decide (b ≤ 191)

/-- Rust `std::str::from_utf8` succeeds: the standard UTF-8 validity check
(shortest form, no surrogates, max U+10FFFF). -/
def isUtf8 : List Nat → Bool
  | [] => true
  | b :: r =>
    if b ≤ 127 then isUtf8 r
    else if 194 ≤ b ∧ b ≤ 223 then
      match r with
      | c :: r' => isContByte c && isUtf8 r'
      | [] => false
    else if b = 224 then
      match r with
      | c :: d :: r' => decide (160 ≤ c) && decide (c ≤ 191) && isContByte d && isUtf8 r'
      | _ => false
    else if (225 ≤ b ∧ b ≤ 236) ∨ b = 238 ∨ b = 239 then
      match r with
      | c :: d :: r' => isContByte c && isContByte d && isUtf8 r'
      | _ => false
    else if b = 237 then
      match r with
      | c :: d :: r' => decide (128 ≤ c) && decide (c ≤ 159) && isContByte d && isUtf8 r'
      | _ => false
    else if b = 240 then
      match r with
      | c :: d :: e :: r' =>
        decide (144 ≤ c) && decide (c ≤ 191) && isContByte d && isContByte e && isUtf8 r'
      | _ => false
    else if 241 ≤ b ∧ b ≤ 243 then
      match r with
      | c :: d :: e :: r' => isContByte c && isContByte d && isContByte e && isUtf8 r'
      | _ => false
    else if b = 244 then
      match r with
      | c :: d :: e :: r' =>
        decide (128 ≤ c) && decide (c ≤ 143) && isContByte d && isContByte e && isUtf8 r'
      | _ => false
    else false

/-- The parsed form of a constant (`src/bytecode/mod.rs` `Constant`): a
function body stays a raw byte slice. -/
inductive PConstant where
  | number (text : List Nat)
  | string (bytes : List Nat)
  | function (arity : Nat) (body : List Nat)
deriving DecidableEq, Repr

inductive PStruct where
  | empty
  | positional (count : Nat)
  | named (members : List (List Nat))
deriving DecidableEq, Repr

/-- The parsed module (`parser::bytecode`): constants, the globals map
(name string, value index), the structs map (name string, descriptor),
each map modelled as its entry list in parse order. -/
structure PModule where
  constants : List PConstant
  globals : List (List Nat × Nat)
  structs : List (List Nat × PStruct)
deriving DecidableEq, Repr

/-- Rust `parser::number`. -/
def pNumber : ParserM (List Nat) := do
  let len ← pBeU16
  let bytes ← pTake len
  if validNumberBytes bytes then pure bytes else pFail

/-- Rust `parser::string`. -/
def pString : ParserM (List Nat) := do
  let len ← pBeU16
  let bytes ← pTake len
  if isUtf8 bytes then pure bytes else pFail

/-- Rust `parser::function`. -/
def pFunction : ParserM PConstant := do
  let arity ← pBeU16
  let len ← pBeU16
  let bytes ← pTake len
  pure (.function arity bytes)

/-- Rust `parser::constant`: kind tag then payload. -/
def pConstantEntry : ParserM PConstant := do
  let t ← pByte
  match t with
  | 0 => do
    let text ← pNumber
    pure (.number text)
  | 1 => do
    let bytes ← pString
    pure (.string bytes)
  | 2 => pFunction
  | _ => pFail

/-- Rust `parser::get_string_constant`. -/
def getStringConstant (cs : List PConstant) (index : Nat) : Option (List Nat) :=
  match cs.get? index with
  | some (.string s) => some s
  | _ => none

/-- Rust `parser::global`: a (name index, value index) pair; the name index
must resolve to a string constant. -/
def pGlobal (constants : List PConstant) : ParserM (List Nat × Nat) := do
  let name ← pBeU16
  let value ← pBeU16
  match getStringConstant constants name with
  | some s => pure (s, value)
  | none => pFail

/-- Rust `parser::strucct`. -/
def pStructEntry (constants : List PConstant) : ParserM (List Nat × PStruct) := do
  let nameIdx ← pBeU16
  match getStringConstant constants nameIdx with
  | none => pFail
  | some name => do
    let t ← pByte
    match t with
    | 0 => pure (name, .empty)
    | 1 => do
      let count ← pBeU16
      pure (name, .positional count)
    | 2 => do
      let len ← pBeU16
      let members ← pCount len (do
        let memberIdx ← pBeU16
        match getStringConstant constants memberIdx with
        | some m => pPure m
        | none => pFail)
      pure (name, .named members)
    | _ => pFail

/-- Rust `parser::bytecode`. -/
def pModule : ParserM PModule := do
  pTag (asciiBytes "sprachli")
  let _version ← pBeU16
  let clen ← pBeU16
  let constants ← pCount clen pConstantEntry
  let glen ← pBeU16
  let globals ← pCount glen (pGlobal constants)
  let slen ← pBeU16
  let structs ← pCount slen (pStructEntry constants)
  pure ⟨constants, globals, structs⟩

/-- Rust `parse_bytecode`: run the module parser, discarding leftover input. -/
def parseBytecode (i : List Nat) : Option PModule :=
  match pModule i with
  | some (m, _) => some m
  | none => none

/-! ### Well-formedness of a compiler module

The conditions under which the writer's `as u16` casts are lossless and
the parser's constant-reference resolution succeeds; modules built by the
compiler satisfy the reference conditions by construction
(`add_global` and `visit_struct_type` intern every name as a string
constant before recording it), and the size bounds whenever the program
fits the format's 16-bit fields. -/

/-- The string constant at `index`, if the entry is a string. -/
def stringAt (m : CModule) (index : Nat) : Option (List Nat) :=
  match m.constants.get? index with
  | some (.string s) => some s
  | _ => none

/-- What one compiler constant parses back to: numbers and strings carry
their bytes through unchanged, a function keeps its arity and its body is
the writer's encoding, byte for byte. -/
def parsedOfConstant : CConstant → PConstant
  | .number text => .number text
  | .string bytes => .string bytes
  | .function arity body => .function arity (encodeBody body)

/-- What one struct descriptor parses back to, with member-name indices
resolved to the strings they denote. -/
def parsedOfStruct (m : CModule) : StructType → PStruct
  | .empty => .empty
  | .positional count => .positional count
  | .named members => .named (members.map (fun i => (stringAt m i).getD []))

def constantWF : CConstant → Prop
  | .number text => validNumberBytes text = true ∧ text.length < 65536
  | .string bytes => isUtf8 bytes = true ∧ bytes.length < 65536
  | .function arity body => arity < 65536 ∧ (encodeBody body).length < 65536

instance : ∀ c : CConstant, Decidable (constantWF c)
  | .number text =>
    inferInstanceAs (Decidable (validNumberBytes text = true ∧ text.length < 65536))
  | .string bytes =>
    inferInstanceAs (Decidable (isUtf8 bytes = true ∧ bytes.length < 65536))
  | .function arity body =>
    inferInstanceAs (Decidable (arity < 65536 ∧ (encodeBody body).length < 65536))

def structWF (m : CModule) : StructType → Prop
  | .empty => True
  | .positional count => count < 65536
  | .named members =>
    members.length < 65536 ∧ ∀ i ∈ members, i < 65536 ∧ (stringAt m i).isSome = true

instance (m : CModule) : ∀ s : StructType, Decidable (structWF m s)
  | .empty => inferInstanceAs (Decidable True)
  | .positional count => inferInstanceAs (Decidable (count < 65536))
  | .named members =>
    inferInstanceAs
      (Decidable (members.length < 65536 ∧
        ∀ i ∈ members, i < 65536 ∧ (stringAt m i).isSome = true))

def moduleWF (m : CModule) : Prop :=
  m.constants.length < 65536
  ∧ (∀ c ∈ m.constants, constantWF c)
  ∧ m.globals.length < 65536
  ∧ (∀ p ∈ m.globals, p.1 < 65536 ∧ p.2 < 65536 ∧ (stringAt m p.1).isSome = true)
  ∧ m.structTypes.length < 65536
  ∧ (∀ p ∈ m.structTypes, p.1 < 65536 ∧ (stringAt m p.1).isSome = true ∧ structWF m p.2)

instance (m : CModule) : Decidable (moduleWF m) := by
  unfold moduleWF
  infer_instance

/-- Rust `p` consumes exactly `bs` from the front of the input and yields `a`:
the building block for relating the writer and the parser. -/
def Encodes {α : Type} (p : ParserM α) (bs : List Nat) (a : α) : Prop :=
  ∀ r, p (bs ++ r) = some (a, r)

/-! ## The constant pool

From `Compiler::add_constant` in `src/compiler/mod.rs`: the pool is the
vector `constants` plus the lookup table `constants_map` (a
`HashMap<Constant, usize>`, modelled as an association list looked up by
structural equality — which is exactly the map's `Eq`-based lookup when
keys are unique). -/

structure CompState where
  constants : List CConstant
  constantsMap : List (CConstant × Nat)
deriving DecidableEq, Repr

def emptyCompState : CompState := ⟨[], []⟩

/-- Rust `HashMap::get` on the modelled map. -/
def mapLookup (m : List (CConstant × Nat)) (c : CConstant) : Option Nat :=
  match m.find? (fun p => p.1 = c) with
  | some p => some p.2
  | none => none

/-- Rust `Compiler::add_constant`: return the index of a structurally equal
constant if one is present, otherwise append the constant and record its
index. -/
def addConstant (st : CompState) (c : CConstant) : Nat × CompState :=
  match mapLookup st.constantsMap c with
  | some index => (index, st)
  | none =>
    let index := st.constants.length
    (index, ⟨st.constants ++ [c], st.constantsMap ++ [(c, index)]⟩)

/-- The invariant `add_constant` maintains between the pool vector and the
lookup map: the map indexes exactly the pool's entries. -/
def PoolInv (st : CompState) : Prop :=
  (∀ c i, mapLookup st.constantsMap c = some i → st.constants.get? i = some c)
  ∧ (∀ i c, st.constants.get? i = some c → mapLookup st.constantsMap c = some i)

/-! ## String literals

From `src/parser/string_literal.rs`: strip the opening quote, process
escapes (`\\`, `\"`, `\n`, `\r`, `\t`; any other escape fails), stop at the
closing quote, and reject trailing content past it. -/

inductive ParseStringError where
  | missingOpenQuote
  | unfinishedEscapeSequence
  | illegalEscapeSequence (c : Char)
  | missingClosedQuote
  | trailingContent
deriving DecidableEq, Repr

/-- The `while let` loop of `string_from_literal`, with the accumulated
output returned instead of mutated in place. -/
def sflLoop : List Char → Except ParseStringError (List Char)
  | [] => .error .missingClosedQuote
  | c :: rest =>
    if c = '\\' then
      match rest with
      | [] => .error .unfinishedEscapeSequence
      | e :: rest' =>
        if e = '\\' ∨ e = '"' then
          match sflLoop rest' with
          | .ok s => .ok (e :: s)
          | .error err => .error err
        else if e = 'n' then
          match sflLoop rest' with
          | .ok s => .ok ('\n' :: s)
          | .error err => .error err
        else if e = 'r' then
          match sflLoop rest' with
          | .ok s => .ok ('\r' :: s)
          | .error err => .error err
        else if e = 't' then
          match sflLoop rest' with
          | .ok s => .ok ('\t' :: s)
          | .error err => .error err
        else
          .error (.illegalEscapeSequence e)
    else if c = '"' then
      match rest with
      | [] => .ok []
      | _ => .error .trailingContent
    else
      match sflLoop rest with
      | .ok s => .ok (c :: s)
      | .error err => .error err

/-- Rust `string_from_literal`: the first character must be the opening double
quote. -/
def stringFromLiteral (literal : List Char) : Except ParseStringError (List Char) :=
  match literal with
  | '"' :: rest => sflLoop rest
  | _ => .error .missingOpenQuote

/-- UTF-8 encoding of one scalar value (how a Rust `String` stores the
processed characters). -/
def utf8EncodeChar (c : Char) : List Nat :=
  let n := c.toNat
  if n < 128 then [n]
  else if n < 2048 then [192 + n / 64, 128 + n % 64]
  else if n < 65536 then [224 + n / 4096, 128 + n / 64 % 64, 128 + n % 64]
  else [240 + n / 262144, 128 + n / 4096 % 64, 128 + n / 64 % 64, 128 + n % 64]

def utf8Encode (cs : List Char) : List Nat :=
  (cs.map utf8EncodeChar).flatten

/-! ## The instruction compiler state touched by string literals

From `InstructionCompiler` in `src/compiler/mod.rs`: the compile-time
virtual stack of optional variable descriptors, the instruction buffer, and
the shared `Compiler` (constant pool).  Only the parts exercised by
`visit_string` are carried; `push` and `apply_stack_effect` are embedded in
full since `visit_string` goes through them. -/

structure Variable where
  name : List Nat
  mutable : Bool
deriving DecidableEq, Repr

inductive CompilerError where
  | invalidAssignmentTarget
  | immutableVariable
  | noLoopToExit
  | unsupported (construct : String)
  | internalInvalidNumberLiteral
  | internalInvalidStringLiteral (e : ParseStringError)
  | internalInvalidStackEffect
  | internalInvalidBytecode
deriving DecidableEq, Repr

inductive CRes (α : Type) where
  | ok (a : α)
  | err (e : CompilerError)
  | panic
deriving DecidableEq, Repr

structure ICState where
  comp : CompState
  stack : List (Option Variable)
  instructions : List Instruction
deriving DecidableEq, Repr

/-- Rust `InstructionCompiler::apply_stack_effect`: extend the virtual stack
with anonymous slots, or truncate it, failing `InvalidStackEffect` on
underflow. -/
def applyStackEffect (stack : List (Option Variable)) (effect : Int) :
    Except CompilerError (List (Option Variable)) :=
  if 0 ≤ effect then .ok (stack ++ List.replicate effect.toNat none)
  else if (-effect).toNat ≤ stack.length then
    .ok (stack.take (stack.length - (-effect).toNat))
  else .error .internalInvalidStackEffect

/-- Rust `InstructionCompiler::push` for a real instruction: apply the static
stack effect, or for `PopScope(depth)` drain the virtual stack from
`depth` to just below the top (a `Vec::drain` whose start exceeds its end
panics); then append the instruction. -/
def pushInstruction (st : ICState) (ins : Instruction) : CRes ICState :=
  match ins.stackEffect with
  | some effect =>
    match applyStackEffect st.stack effect with
    | .ok stack' => .ok ⟨st.comp, stack', st.instructions ++ [ins]⟩
    | .error e => .err e
  | none =>
    match ins with
    | .popScope depth =>
      match st.stack.length with
      | 0 => .err .internalInvalidStackEffect
      | n + 1 =>
        if depth ≤ n then
          .ok ⟨st.comp, st.stack.take depth ++ st.stack.drop n, st.instructions ++ [ins]⟩
        else .panic
    | _ => .panic

/-- Rust `InstructionCompiler::visit_string`: process the literal's escapes,
intern the processed string in the constant pool, and emit a load-constant
instruction for it. -/
def visitString (st : ICState) (literal : List Char) : CRes ICState :=
  match stringFromLiteral literal with
  | .error e => .err (.internalInvalidStringLiteral e)
  | .ok s =>
    let (index, comp') := addConstant st.comp (.string (utf8Encode s))
    pushInstruction ⟨comp', st.stack, st.instructions⟩ (.constant index)

/-! ## The workspace-split decoder

From `src/sprachli_bytecode/src/lib.rs` and
`src/sprachli_bytecode/src/instruction.rs`: the same instruction iterator,
but against that crate's `Opcode` enum, which carries no explicit
discriminants — so its numbering starts at `Constant = 0` in declaration
order (constants, calculations, memory, stack management, jumps). -/

def sbNext (it : Iter) : Option (Except BytecodeError Instruction × Iter) :=
  match it.advance with
  | none => none
  | some (b, it') =>
    match b with
    | 0 =>
      some (match it'.parameter b with
            | .ok (p, it2) => (.ok (.constant p), it2)
            | .error e => (.error e, it'))
    | 1 => some (.ok (.inlineConstant .unit), it')
    | 2 => some (.ok (.inlineConstant (.bool true)), it')
    | 3 => some (.ok (.inlineConstant (.bool false)), it')
    | 4 =>
      some (match it'.parameter b with
            | .ok (p, it2) =>
              match unaryOperatorOfByte p with
              | some op => (.ok (.unary op), it2)
              | none => (.error (.invalidInstruction b), it2)
            | .error e => (.error e, it'))
    | 5 =>
      some (match it'.parameter b with
            | .ok (p, it2) =>
              match binaryOperatorOfByte p with
              | some op => (.ok (.binary op), it2)
              | none => (.error (.invalidInstruction b), it2)
            | .error e => (.error e, it'))
    | 6 =>
      some (match it'.parameter b with
            | .ok (p, it2) => (.ok (.loadLocal p), it2)
            | .error e => (.error e, it'))
    | 7 =>
      some (match it'.parameter b with
            | .ok (p, it2) => (.ok (.storeLocal p), it2)
            | .error e => (.error e, it'))
    | 8 =>
      some (match it'.parameter b with
            | .ok (p, it2) => (.ok (.loadNamed p), it2)
            | .error e => (.error e, it'))
    | 9 =>
      some (match it'.parameter b with
            | .ok (p, it2) => (.ok (.storeNamed p), it2)
            | .error e => (.error e, it'))
    | 10 =>
      some (match it'.parameter b with
            | .ok (p, it2) => (.ok (.loadPositionalField p), it2)
            | .error e => (.error e, it'))
    | 11 =>
      some (match it'.parameter b with
            | .ok (p, it2) => (.ok (.storePositionalField p), it2)
            | .error e => (.error e, it'))
    | 12 =>
      some (match it'.parameter b with
            | .ok (p, it2) => (.ok (.loadNamedField p), it2)
            | .error e => (.error e, it'))
    | 13 =>
      some (match it'.parameter b with
            | .ok (p, it2) => (.ok (.storeNamedField p), it2)
            | .error e => (.error e, it'))
    | 14 => some (.ok .pop, it')
    | 15 =>
      some (match it'.parameter b with
            | .ok (p, it2) => (.ok (.popScope p), it2)
            | .error e => (.error e, it'))
    | 16 =>
      some (match it'.parameter b with
            | .ok (p, it2) => (.ok (.call p), it2)
            | .error e => (.error e, it'))
    | 17 => some (.ok .ret, it')
    | 18 =>
      some (match it'.parameter b with
            | .ok (p, it2) => (.ok (.jump (.forward p)), it2)
            | .error e => (.error e, it'))
    | 19 =>
      some (match it'.parameter b with
            | .ok (p, it2) => (.ok (.jump (.backward p)), it2)
            | .error e => (.error e, it'))
    | 20 =>
      some (match it'.parameter b with
            | .ok (p, it2) => (.ok (.jumpIf (.forward p)), it2)
            | .error e => (.error e, it'))
    | 21 =>
      some (match it'.parameter b with
            | .ok (p, it2) => (.ok (.jumpIf (.backward p)), it2)
            | .error e => (.error e, it'))
    | _ => some (.error (.invalidOpcode b), it')

/-! ## Helper lemmas -/

theorem drop_length_sub_one {α : Type} (l : List α) (h : l ≠ []) :
    l.drop (l.length - 1) = [l.getLast h] := by
  induction l with
  | nil => exact absurd rfl h
  | cons a t ih =>
    cases t with
    | nil => simp
    | cons b t' =>
      have ht : b :: t' ≠ [] := by simp
      have hlen : (a :: b :: t').length - 1 = ((b :: t').length - 1) + 1 := by
        simp
      rw [hlen, List.drop_succ_cons, ih ht, List.getLast_cons ht]

theorem popAllUnder_ok_length {s : Stack} {index : Nat} {drained : List Value} {s' : Stack}
    (h : s.popAllUnder index = .ok (drained, s')) (hlt : index < s.length) :
    s'.length = index + 1 := by
  unfold Stack.popAllUnder Stack.checkedIndex at h
  simp only [hlt, if_pos] at h
  injection h with h
  injection h with h1 h2
  subst h2
  have hd : (s.drop (s.length - 1)).length = 1 := by
    rw [List.length_drop]
    omega
  rw [List.length_append, List.length_take, hd]
  omega

/-! ## Claim theorems -/

/-- C7: for every operand stack `s` and index `i`, if `i < len(s)` then
`pop_all_under(i)` drains exactly the elements at positions `i` through
`len(s) - 2` (the slice `s[0 .. len-1]` dropped below `i`), leaving the
prefix `s[0 .. i]` followed by the former top value, so the new length is
`i + 1`; if `i ≥ len(s)` it fails with the `EmptyStack` underflow error
(and, being the first thing the method does, leaves the stack untouched). -/
theorem c7_pop_all_under (s : Stack) (i : Nat) :
    (i < s.length →
      ∃ top, s.getLast? = some top ∧
        s.popAllUnder i = .ok ((s.take (s.length - 1)).drop i, s.take i ++ [top]) ∧
        (s.take i ++ [top]).length = i + 1)
    ∧ (s.length ≤ i → s.popAllUnder i = .error (.internal .emptyStack)) := by
  constructor
  · intro hlt
    have hne : s ≠ [] := by
      intro hnil
      rw [hnil] at hlt
      simp at hlt
    refine ⟨s.getLast hne, List.getLast?_eq_getLast s hne, ?_, ?_⟩
    · unfold Stack.popAllUnder Stack.checkedIndex
      simp only [hlt, if_pos]
      rw [drop_length_sub_one s hne]
    · rw [List.length_append, List.length_take]
      simp
      omega
  · intro hge
    unfold Stack.popAllUnder Stack.checkedIndex
    have : ¬ (i < s.length) := by omega
    simp only [this, if_neg, if_false]

/-- Witness for C7 at the concrete stack `[unit, true, 3]` with in-range
index 1 and out-of-range index 5. -/
theorem c7_pop_all_under_witness :
    (∃ top, ([Value.unit, Value.bool true, Value.number 3] : Stack).getLast? = some top ∧
        Stack.popAllUnder [Value.unit, Value.bool true, Value.number 3] 1 =
          .ok ((([Value.unit, Value.bool true, Value.number 3] : Stack).take 2).drop 1,
            ([Value.unit, Value.bool true, Value.number 3] : Stack).take 1 ++ [top]) ∧
        (([Value.unit, Value.bool true, Value.number 3] : Stack).take 1 ++ [top]).length = 2)
    ∧ Stack.popAllUnder [Value.unit, Value.bool true, Value.number 3] 5 =
        .error (.internal .emptyStack) :=
  ⟨(c7_pop_all_under [Value.unit, Value.bool true, Value.number 3] 1).1 (by decide),
   (c7_pop_all_under [Value.unit, Value.bool true, Value.number 3] 5).2 (by decide)⟩

theorem popMultiple_two (pre : Stack) (l r : Value) :
    Stack.popMultiple (pre ++ [l, r]) 2 = .ok ([l, r], pre) := by
  unfold Stack.popMultiple
  have hlen : (pre ++ [l, r]).length = pre.length + 2 := by simp
  have h2 : 2 ≤ (pre ++ [l, r]).length := by omega
  simp only [h2, if_pos]
  have hsub : (pre ++ [l, r]).length - 2 = pre.length := by omega
  rw [hsub]
  have hd : (pre ++ [l, r]).drop pre.length = [l, r] := List.drop_left pre [l, r]
  have ht : (pre ++ [l, r]).take pre.length = pre := List.take_left pre [l, r]
  rw [hd, ht]

theorem binaryCompute_shl_ok (a b : ℚ) (hda : a.den = 1) (hdb : b.den = 1)
    (hf : fitsIsize b) :
    binaryCompute .leftShift (.number a) (.number b) = .ok (.number (bigShl a.num b.num : ℚ)) := by
  simp [binaryCompute, Value.asNumber, toInteger, toIsize, hda, hdb, hf]

theorem binaryCompute_shr_ok (a b : ℚ) (hda : a.den = 1) (hdb : b.den = 1)
    (hf : fitsIsize b) :
    binaryCompute .rightShift (.number a) (.number b) = .ok (.number (bigShr a.num b.num : ℚ)) := by
  simp [binaryCompute, Value.asNumber, toInteger, toIsize, hda, hdb, hf]

theorem binaryCompute_shl_err (l r : Value)
    (hbad : ¬ ∃ a b : ℚ, l = .number a ∧ r = .number b ∧ a.den = 1 ∧ b.den = 1 ∧ fitsIsize b) :
    ∃ msg, binaryCompute .leftShift l r = .err (.typeError msg) := by
  cases l with
  | number a =>
    by_cases hda : a.den = 1
    · cases r with
      | number b =>
        by_cases hdb : b.den = 1
        · have hf : ¬ fitsIsize b := fun hf => hbad ⟨a, b, rfl, rfl, hda, hdb, hf⟩
          exact ⟨"small integral number value",
            by simp [binaryCompute, Value.asNumber, toInteger, toIsize, hda, hdb, hf]⟩
        · exact ⟨"integral number value",
            by simp [binaryCompute, Value.asNumber, toInteger, toIsize, hda, hdb]⟩
      | unit => exact ⟨"bool", by simp [binaryCompute, Value.asNumber, toInteger, hda]⟩
      | bool x => exact ⟨"bool", by simp [binaryCompute, Value.asNumber, toInteger, hda]⟩
      | string x => exact ⟨"bool", by simp [binaryCompute, Value.asNumber, toInteger, hda]⟩
      | function x => exact ⟨"bool", by simp [binaryCompute, Value.asNumber, toInteger, hda]⟩
    · exact ⟨"integral number value", by simp [binaryCompute, Value.asNumber, toInteger, hda]⟩
  | unit => exact ⟨"bool", by simp [binaryCompute, Value.asNumber]⟩
  | bool x => exact ⟨"bool", by simp [binaryCompute, Value.asNumber]⟩
  | string x => exact ⟨"bool", by simp [binaryCompute, Value.asNumber]⟩
  | function x => exact ⟨"bool", by simp [binaryCompute, Value.asNumber]⟩

theorem binaryCompute_shr_err (l r : Value)
    (hbad : ¬ ∃ a b : ℚ, l = .number a ∧ r = .number b ∧ a.den = 1 ∧ b.den = 1 ∧ fitsIsize b) :
    ∃ msg, binaryCompute .rightShift l r = .err (.typeError msg) := by
  cases l with
  | number a =>
    by_cases hda : a.den = 1
    · cases r with
      | number b =>
        by_cases hdb : b.den = 1
        · have hf : ¬ fitsIsize b := fun hf => hbad ⟨a, b, rfl, rfl, hda, hdb, hf⟩
          exact ⟨"small integral number value",
            by simp [binaryCompute, Value.asNumber, toInteger, toIsize, hda, hdb, hf]⟩
        · exact ⟨"integral number value",
            by simp [binaryCompute, Value.asNumber, toInteger, toIsize, hda, hdb]⟩
      | unit => exact ⟨"bool", by simp [binaryCompute, Value.asNumber, toInteger, hda]⟩
      | bool x => exact ⟨"bool", by simp [binaryCompute, Value.asNumber, toInteger, hda]⟩
      | string x => exact ⟨"bool", by simp [binaryCompute, Value.asNumber, toInteger, hda]⟩
      | function x => exact ⟨"bool", by simp [binaryCompute, Value.asNumber, toInteger, hda]⟩
    · exact ⟨"integral number value", by simp [binaryCompute, Value.asNumber, toInteger, hda]⟩
  | unit => exact ⟨"bool", by simp [binaryCompute, Value.asNumber]⟩
  | bool x => exact ⟨"bool", by simp [binaryCompute, Value.asNumber]⟩
  | string x => exact ⟨"bool", by simp [binaryCompute, Value.asNumber]⟩
  | function x => exact ⟨"bool", by simp [binaryCompute, Value.asNumber]⟩

/-- C8: with operands `left` (below) and `right` (top) on the stack, a
shift instruction succeeds exactly when both operands are integer-valued
numbers and `right` additionally fits a 64-bit machine signed integer
(`fitsIsize`); the result is then the big-integer shift of `left` by
`right` (`bigShl` / `bigShr`), and in every other case the operation fails
with a `TypeError`. -/
theorem c8_shift_semantics (pre : Stack) (l r : Value) :
    (∀ a b : ℚ, l = .number a → r = .number b → a.den = 1 → b.den = 1 → fitsIsize b →
      vmBinary .leftShift (pre ++ [l, r]) = .ok (pre ++ [.number (bigShl a.num b.num : ℚ)]) ∧
      vmBinary .rightShift (pre ++ [l, r]) = .ok (pre ++ [.number (bigShr a.num b.num : ℚ)]))
    ∧ (¬ (∃ a b : ℚ, l = .number a ∧ r = .number b ∧ a.den = 1 ∧ b.den = 1 ∧ fitsIsize b) →
      (∃ msg, vmBinary .leftShift (pre ++ [l, r]) = .err (.typeError msg)) ∧
      (∃ msg, vmBinary .rightShift (pre ++ [l, r]) = .err (.typeError msg))) := by
  constructor
  · intro a b hl hr hda hdb hf
    subst hl
    subst hr
    unfold vmBinary
    rw [popMultiple_two]
    dsimp only
    rw [binaryCompute_shl_ok a b hda hdb hf, binaryCompute_shr_ok a b hda hdb hf]
    exact ⟨rfl, rfl⟩
  · intro hbad
    unfold vmBinary
    rw [popMultiple_two]
    dsimp only
    obtain ⟨m1, h1⟩ := binaryCompute_shl_err l r hbad
    obtain ⟨m2, h2⟩ := binaryCompute_shr_err l r hbad
    rw [h1, h2]
    exact ⟨⟨m1, rfl⟩, ⟨m2, rfl⟩⟩

/-- Witness for C8: `3 << 2 = 12` and `3 >> 2 = 0` on an empty lower
stack, and shifting by a boolean is a `TypeError`. -/
theorem c8_shift_semantics_witness :
    (vmBinary .leftShift ([] ++ [Value.number 3, Value.number 2]) =
        .ok ([] ++ [.number (bigShl (3 : ℚ).num (2 : ℚ).num : ℚ)]) ∧
      vmBinary .rightShift ([] ++ [Value.number 3, Value.number 2]) =
        .ok ([] ++ [.number (bigShr (3 : ℚ).num (2 : ℚ).num : ℚ)]))
    ∧ ((∃ msg, vmBinary .leftShift ([] ++ [Value.number 3, Value.bool true]) =
          .err (.typeError msg)) ∧
       (∃ msg, vmBinary .rightShift ([] ++ [Value.number 3, Value.bool true]) =
          .err (.typeError msg))) :=
  ⟨(c8_shift_semantics [] (Value.number 3) (Value.number 2)).1 3 2 rfl rfl (by decide)
      (by decide) (by decide),
   (c8_shift_semantics [] (Value.number 3) (Value.bool true)).2 (by
      rintro ⟨a, b, _, hb, _⟩
      exact absurd hb (by simp))⟩

/-- C3: at `call(arity)` the interpreter computes
`offset = len - arity - 1`; with fewer than `arity + 1` values on the
stack it fails with the `EmptyStack` underflow error.  Otherwise, when the
value at `offset` is a function `f`, it removes that callee from position
`offset`, and it fails with `ValueError` if and only if `f`'s declared
arity differs from the call's arity (on a match, dispatch succeeds with
the callee removed). -/
theorem c3_call_dispatch (st : Stack) (arity : Nat) :
    (st.length < arity + 1 → callDispatch st arity = .error (.internal .emptyStack))
    ∧ (∀ f : VFunction, arity + 1 ≤ st.length →
        st.get? (st.length - (arity + 1)) = some (.function f) →
        ((∃ msg, callDispatch st arity = .error (.valueError msg)) ↔ f.arity ≠ arity)
        ∧ (f.arity = arity →
            callDispatch st arity =
              .ok (f, st.length - (arity + 1),
                st.take (st.length - (arity + 1)) ++ st.drop (st.length - (arity + 1) + 1)))) := by
  constructor
  · intro hlt
    have hc : ¬ (arity + 1 ≤ st.length) := by omega
    unfold callDispatch Stack.checkedIndex
    simp [hc]
  · intro f hle hget
    have hoff : st.length - (arity + 1) < st.length := by omega
    have hred : callDispatch st arity =
        (if arity = f.arity then
          .ok (f, st.length - (arity + 1),
            st.take (st.length - (arity + 1)) ++ st.drop (st.length - (arity + 1) + 1))
        else
          .error (.valueError ("wrong parameter number; expected " ++ toString f.arity
            ++ ", got " ++ toString arity))) := by
      have hget2 : st[st.length - (arity + 1)]? = some (Value.function f) := by
        rw [← List.get?_eq_getElem?]
        exact hget
      rw [List.getElem?_eq_getElem hoff] at hget2
      have hg := Option.some.inj hget2
      unfold callDispatch Stack.popDeep
      simp [Stack.checkedIndex, hle, hoff, hget, hg, Value.asFunction]
    by_cases harr : f.arity = arity
    · refine ⟨⟨?_, ?_⟩, ?_⟩
      · rintro ⟨msg, hm⟩
        rw [hred] at hm
        simp [harr] at hm
      · intro hne
        exact absurd harr hne
      · intro _
        rw [hred]
        simp [harr]
    · refine ⟨⟨?_, ?_⟩, ?_⟩
      · intro _
        exact harr
      · intro _
        refine ⟨"wrong parameter number; expected " ++ toString f.arity
            ++ ", got " ++ toString arity, ?_⟩
        rw [hred]
        rw [if_neg (show ¬ arity = f.arity from fun h => harr h.symm)]
      · intro h
        exact absurd h harr

/-- Witness for C3 at three concrete calls: an underflowing `call(0)` on an
empty stack, a matching `call(1)`, and a mismatched `call(0)` on an
arity-1 callee. -/
theorem c3_call_dispatch_witness :
    callDispatch [] 0 = .error (.internal .emptyStack)
    ∧ callDispatch [Value.function ⟨1, [14]⟩, Value.unit] 1 =
        .ok (⟨1, [14]⟩, 0,
          ([Value.function ⟨1, [14]⟩, Value.unit] : Stack).take 0 ++
            ([Value.function ⟨1, [14]⟩, Value.unit] : Stack).drop 1)
    ∧ (∃ msg, callDispatch [Value.function ⟨1, [14]⟩] 0 = .error (.valueError msg)) :=
  ⟨(c3_call_dispatch [] 0).1 (by decide),
   ((c3_call_dispatch [Value.function ⟨1, [14]⟩, Value.unit] 1).2 ⟨1, [14]⟩ (by decide)
      (by decide)).2 rfl,
   ((c3_call_dispatch [Value.function ⟨1, [14]⟩] 0).2 ⟨1, [14]⟩ (by decide)
      (by decide)).1.mpr (by decide)⟩

theorem mapLookup_append (m : List (CConstant × Nat)) (d : CConstant) (j : Nat)
    (c : CConstant) :
    mapLookup (m ++ [(d, j)]) c =
      match mapLookup m c with
      | some i => some i
      | none => if d = c then some j else none := by
  induction m with
  | nil =>
    unfold mapLookup
    by_cases hdc : d = c
    · simp [List.find?, hdc]
    · simp [List.find?, hdc]
  | cons p t ih =>
    unfold mapLookup at *
    by_cases hp : p.1 = c
    · simp [List.find?, hp]
    · simp only [List.cons_append, List.find?]
      have : (decide (p.1 = c)) = false := by simp [hp]
      rw [this]
      exact ih

/-- C4: within one compile the constant-pool insert is deterministic on
structural equality.  Conjuncts: the empty pool satisfies the pool/map
invariant `PoolInv`; `add_constant` preserves it; inserting two
structurally equal constants in sequence returns the same index; inserting
a constant already present returns its existing index and leaves the state
(pool included) unchanged; and under the invariant the pool has no two
structurally equal entries. -/
theorem c4_constant_interning :
    PoolInv emptyCompState
    ∧ (∀ st c, PoolInv st → PoolInv (addConstant st c).2)
    ∧ (∀ st c1 c2, c1 = c2 →
        (addConstant (addConstant st c1).2 c2).1 = (addConstant st c1).1)
    ∧ (∀ st c i, PoolInv st → st.constants.get? i = some c →
        addConstant st c = (i, st))
    ∧ (∀ st, PoolInv st → st.constants.Nodup) := by
  refine ⟨?_, ?_, ?_, ?_, ?_⟩
  · constructor
    · intro c i h
      simp [mapLookup, emptyCompState] at h
    · intro i c h
      simp [emptyCompState] at h
  · intro st c hinv
    obtain ⟨h1, h2⟩ := hinv
    unfold addConstant
    cases hl : mapLookup st.constantsMap c with
    | some i => exact ⟨h1, h2⟩
    | none =>
      constructor
      · intro x i h
        rw [mapLookup_append] at h
        cases hx : mapLookup st.constantsMap x with
        | some j =>
          rw [hx] at h
          injection h with h
          subst h
          have hx2 := h1 x j hx
          have hj : j < st.constants.length := (List.get?_eq_some.mp hx2).1
          rw [List.get?_append hj]
          exact hx2
        | none =>
          rw [hx] at h
          by_cases hcx : c = x
          · subst hcx
            simp at h
            subst h
            exact List.get?_concat_length st.constants c
          · simp [hcx] at h
      · intro i x h
        rw [mapLookup_append]
        by_cases hi : i < st.constants.length
        · rw [List.get?_append hi] at h
          rw [h2 i x h]
        · have hlen : i < st.constants.length + 1 := by
            have := List.get?_eq_some.mp h
            simpa using this.1
          have hieq : i = st.constants.length := by omega
          subst hieq
          rw [List.get?_concat_length] at h
          injection h with h
          subst h
          rw [hl]
          simp
  · intro st c1 c2 heq
    subst heq
    unfold addConstant
    cases hl : mapLookup st.constantsMap c1 with
    | some i => simp [hl]
    | none =>
      simp only [hl]
      rw [mapLookup_append, hl]
      simp
  · intro st c i hinv hget
    have := hinv.2 i c hget
    unfold addConstant
    rw [this]
  · intro st hinv
    rw [List.nodup_iff_injective_get]
    intro i j hij
    have hi := hinv.2 i.1 (st.constants.get i) (List.get?_eq_get i.2)
    have hj := hinv.2 j.1 (st.constants.get j) (List.get?_eq_get j.2)
    rw [hij] at hi
    rw [hi] at hj
    injection hj with hj
    exact Fin.ext hj

/-- Witness for C4: the invariant-dependent conjuncts applied to the pool
that results from interning the string "main" into the empty pool. -/
theorem c4_constant_interning_witness :
    PoolInv (addConstant emptyCompState (.string (asciiBytes "main"))).2
    ∧ addConstant (addConstant emptyCompState (.string (asciiBytes "main"))).2
        (.string (asciiBytes "main")) =
        (0, (addConstant emptyCompState (.string (asciiBytes "main"))).2)
    ∧ (addConstant emptyCompState (.string (asciiBytes "main"))).2.constants.Nodup := by
  have h := c4_constant_interning
  have hinv := h.2.1 emptyCompState (.string (asciiBytes "main")) h.1
  refine ⟨hinv, ?_, h.2.2.2.2 _ hinv⟩
  exact h.2.2.2.1 _ (.string (asciiBytes "main")) 0 hinv (by decide)

/-- C10: the writer encodes every instruction parameter (constant index,
local slot, global-name index, field index, pop-scope depth, call arity,
jump byte offset) as its value modulo 256 — the `as u8` cast — and writing
is total, so a parameter above 255 is silently truncated and the written
body decodes to a different instruction than was compiled (shown on the
decoder for a load-constant with index `i > 255`, which decodes to index
`i % 256`). -/
theorem c10_parameter_truncation :
    (∀ i,
      encodeInstruction (.constant i) = [1, i % 256] ∧
      encodeInstruction (.loadLocal i) = [8, i % 256] ∧
      encodeInstruction (.loadNamed i) = [9, i % 256] ∧
      encodeInstruction (.storeLocal i) = [10, i % 256] ∧
      encodeInstruction (.storeNamed i) = [11, i % 256] ∧
      encodeInstruction (.popScope i) = [12, i % 256] ∧
      encodeInstruction (.call i) = [13, i % 256] ∧
      encodeInstruction (.jump (.forward i)) = [15, i % 256] ∧
      encodeInstruction (.jump (.backward i)) = [16, i % 256] ∧
      encodeInstruction (.jumpIf (.forward i)) = [17, i % 256] ∧
      encodeInstruction (.jumpIf (.backward i)) = [18, i % 256] ∧
      encodeInstruction (.loadPositionalField i) = [19, i % 256] ∧
      encodeInstruction (.storePositionalField i) = [20, i % 256] ∧
      encodeInstruction (.loadNamedField i) = [21, i % 256] ∧
      encodeInstruction (.storeNamedField i) = [22, i % 256])
    ∧ (∀ i, 255 < i →
        Iter.next ⟨encodeBody [.constant i], 0⟩ =
          some (.ok (.constant (i % 256)), ⟨encodeBody [.constant i], 2⟩)
        ∧ Instruction.constant (i % 256) ≠ .constant i) := by
  constructor
  · intro i
    refine ⟨rfl, rfl, rfl, rfl, rfl, rfl, rfl, rfl, rfl, rfl, rfl, rfl, rfl, rfl, rfl⟩
  · intro i hi
    constructor
    · simp [Iter.next, Iter.advance, Iter.parameter, encodeBody, encodeInstruction]
    · intro h
      injection h with h
      have : i % 256 < 256 := Nat.mod_lt i (by omega)
      omega

/-- Witness for C10 at the concrete parameter 256: the body encodes to
`[1, 0]` and decodes back as load-constant 0, not 256. -/
theorem c10_parameter_truncation_witness :
    Iter.next ⟨encodeBody [.constant 256], 0⟩ =
      some (.ok (.constant (256 % 256)), ⟨encodeBody [.constant 256], 2⟩)
    ∧ Instruction.constant (256 % 256) ≠ .constant 256 :=
  (c10_parameter_truncation).2 256 (by decide)

/-- C6 (amended): in the main crate, the writer emits only the opcode
bytes of `opcodeByte` — all at least 1 — as the first byte of every
encoded instruction, and the main decoder rejects a body whose next byte
is 0 with `InvalidOpcode`; in the `sprachli_bytecode` workspace crate,
however, the `Opcode` enum carries no explicit discriminants, so byte 0 is
the `Constant` opcode and decodes successfully. -/
theorem c6_opcode_zero :
    (∀ ins : Instruction, (encodeInstruction ins).head? = some (opcodeByte ins)
      ∧ 1 ≤ opcodeByte ins)
    ∧ (∀ rest : List Nat, Iter.next ⟨0 :: rest, 0⟩ =
        some (.error (.invalidOpcode 0), ⟨0 :: rest, 1⟩))
    ∧ (∀ p rest, sbNext ⟨0 :: p :: rest, 0⟩ =
        some (.ok (.constant p), ⟨0 :: p :: rest, 2⟩)) := by
  refine ⟨?_, ?_, ?_⟩
  · intro ins
    cases ins <;>
      first
        | exact ⟨rfl, by simp [opcodeByte]⟩
        | (rename_i x
           cases x <;>
             first
               | exact ⟨rfl, by simp [opcodeByte]⟩
               | (rename_i b
                  cases b <;> exact ⟨rfl, by simp [opcodeByte]⟩))
  · intro rest
    rfl
  · intro p rest
    rfl

/-- Counterexample for C6 as frozen: decoding the body `[0, 5]` with the
`sprachli_bytecode` crate's instruction iterator yields
`Ok(Constant(5))` — a successful decode, not an invalid-opcode error. -/
theorem c6_opcode_zero_counterexample :
    sbNext ⟨[0, 5], 0⟩ = some (.ok (.constant 5), ⟨[0, 5], 2⟩)
    ∧ (Except.ok (Instruction.constant 5) : Except BytecodeError Instruction) ≠
        .error (.invalidOpcode 0) :=
  ⟨rfl, by simp⟩

/-- C5 (code bug): the claim (and the spec) say an out-of-range jump is a
runtime error surfaced as the interpreter's invalid-jump error, but
`InstructionIter::raw_jump` adjusts the cursor without any bounds check:
a forward jump past the end makes the re-slicing `body[offset..]` panic
and a backward jump past the start underflows the `usize` offset.  The
jump function can only return `Ok` or panic, so the
`map_err(|_| InvalidJump)` in `Vm::jump` is dead code.  Executing
`call(0)` on a function whose 2-byte body jumps forward by 200 (or
backward by 7) ends in a panic, not in an error. -/
theorem c5_out_of_range_jump_panics :
    vmCall 10 ⟨[], []⟩ [Value.function ⟨0, [15, 200]⟩] 0 = .panic
    ∧ vmCall 10 ⟨[], []⟩ [Value.function ⟨0, [16, 7]⟩] 0 = .panic
    ∧ Iter.rawJump ⟨[15, 200], 2⟩ (.forward 200) = .panic
    ∧ Iter.rawJump ⟨[16, 7], 2⟩ (.backward 7) = .panic := by
  refine ⟨by decide, by decide, by decide, by decide⟩

theorem afterBody_ok_length {offset arity : Nat} {st st' : Stack}
    (h : afterBody offset arity st = .ok st') : st'.length = offset + 1 := by
  unfold afterBody at h
  split at h
  · rename_i hlen
    split at h
    · rename_i drained st2 hpop
      injection h with h
      subst h
      exact popAllUnder_ok_length hpop (by omega)
    · simp at h
  · simp at h

theorem callDispatch_ok {st : Stack} {arity : Nat} {f : VFunction} {offset : Nat}
    {st2 : Stack} (h : callDispatch st arity = .ok (f, offset, st2)) :
    arity + 1 ≤ st.length ∧ offset = st.length - (arity + 1) := by
  unfold callDispatch at h
  by_cases hle : arity + 1 ≤ st.length
  · have hoff : st.length - (arity + 1) < st.length := by omega
    rw [if_pos hle] at h
    simp only [Stack.checkedIndex, hoff, if_true] at h
    refine ⟨hle, ?_⟩
    repeat' split at h
    all_goals first
      | (injection h with h
         injection h with h1 h2
         injection h2 with h2 h3
         exact h2.symm)
      | simp at h
  · rw [if_neg hle] at h
    simp [Stack.checkedIndex] at h

theorem vm_height (fuel : Nat) :
    (∀ m offset arity it st st',
      vmLoop fuel m offset arity it st = .ok st' → st'.length = offset + 1)
    ∧ (∀ m st arity st',
      vmCall fuel m st arity = .ok st' → arity + 1 ≤ st.length ∧ st'.length = st.length - arity) := by
  induction fuel with
  | zero =>
    constructor
    · intro m offset arity it st st' h
      simp [vmLoop] at h
    · intro m st arity st' h
      simp [vmCall] at h
  | succ n ih =>
    obtain ⟨ihL, ihC⟩ := ih
    constructor
    · intro m offset arity it st st' h
      unfold vmLoop at h
      split at h
      · exact afterBody_ok_length h
      · simp at h
      · rename_i ins it' heq
        cases ins <;> (repeat' split at h) <;>
          first
            | exact ihL _ _ _ _ _ _ h
            | exact afterBody_ok_length h
            | simp at h
    · intro m st arity st' h
      unfold vmCall at h
      split at h
      · simp at h
      · rename_i res f offset st2 hd
        obtain ⟨hle, hoff⟩ := callDispatch_ok hd
        have hlen := ihL m offset arity ⟨f.body, 0⟩ st2 st' h
        refine ⟨hle, ?_⟩
        rw [hlen, hoff]
        omega

/-- C2: whenever `Vm::call(arity)` completes normally (returns `Ok`), the
operand stack height equals `offset + 1` where
`offset = len - arity - 1` is the frame offset computed at call entry, and
the stack is its `offset`-element prefix with a single value — the call's
result — above it. -/
theorem c2_call_height (fuel : Nat) (m : VModule) (st : Stack) (arity : Nat)
    (st' : Stack) (h : vmCall fuel m st arity = .ok st') :
    st'.length = (st.length - arity - 1) + 1
    ∧ ∃ v, st' = st'.take (st.length - arity - 1) ++ [v] := by
  obtain ⟨hle, hlen⟩ := (vm_height fuel).2 m st arity st' h
  constructor
  · omega
  · have hne : st' ≠ [] := by
      intro hnil
      rw [hnil] at hlen
      simp at hlen
      omega
    refine ⟨st'.getLast hne, ?_⟩
    conv_lhs => rw [← List.dropLast_append_getLast hne]
    congr 1
    rw [List.dropLast_eq_take]
    have heq : st'.length - 1 = st.length - arity - 1 := by omega
    rw [heq]

/-- Witness for C2: a successful `call(0)` of the constant function
returning unit, from a one-element stack. -/
theorem c2_call_height_witness :
    ([Value.unit] : Stack).length =
      (([Value.function ⟨0, [2]⟩] : Stack).length - 0 - 1) + 1
    ∧ ∃ v, ([Value.unit] : Stack) =
        ([Value.unit] : Stack).take (([Value.function ⟨0, [2]⟩] : Stack).length - 0 - 1)
          ++ [v] :=
  c2_call_height 5 ⟨[], []⟩ [Value.function ⟨0, [2]⟩] 0 [Value.unit] (by decide)

/-- C9: compiling a string literal processes exactly the escape sequences
`\\`, `\"`, `\n`, `\r`, `\t` into the corresponding characters and fails
with `IllegalEscapeSequence` on every other escape; `visit_string` interns
the processed string in the constant pool and emits a load-constant
instruction for it (growing the virtual stack by one anonymous slot); and
in particular the literal of `fn main() { "a\r\nb\"c" }` processes to the
string `a`, CR, LF, `b`, `"`, `c`, and the module compiled from that
program evaluates in the vm to exactly that string. -/
theorem c9_string_literal :
    (∀ rest out, sflLoop rest = .ok out →
      sflLoop ('\\' :: '\\' :: rest) = .ok ('\\' :: out) ∧
      sflLoop ('\\' :: '"' :: rest) = .ok ('"' :: out) ∧
      sflLoop ('\\' :: 'n' :: rest) = .ok ('\n' :: out) ∧
      sflLoop ('\\' :: 'r' :: rest) = .ok ('\r' :: out) ∧
      sflLoop ('\\' :: 't' :: rest) = .ok ('\t' :: out))
    ∧ (∀ c rest, c ∉ (['\\', '"', 'n', 'r', 't'] : List Char) →
        sflLoop ('\\' :: c :: rest) = .error (.illegalEscapeSequence c))
    ∧ (∀ st lit s, stringFromLiteral lit = .ok s →
        visitString st lit =
          .ok ⟨(addConstant st.comp (.string (utf8Encode s))).2,
            st.stack ++ [none],
            st.instructions ++
              [.constant (addConstant st.comp (.string (utf8Encode s))).1]⟩)
    ∧ stringFromLiteral ("\"a\\r\\nb\\\"c\"".data) = .ok ("a\r\nb\"c".data)
    ∧ vmRun 16 ⟨[.string (utf8Encode ("a\r\nb\"c".data)),
          .string (asciiBytes "main"),
          .function ⟨0, encodeBody [.constant 0, .popScope 0]⟩],
        [(asciiBytes "main", 2)]⟩ =
        .ok (.string (utf8Encode ("a\r\nb\"c".data))) := by
  refine ⟨?_, ?_, ?_, ?_, ?_⟩
  · intro rest out hok
    refine ⟨?_, ?_, ?_, ?_, ?_⟩ <;> simp [sflLoop, hok]
  · intro c rest hc
    simp only [List.mem_cons, List.not_mem_nil, or_false, not_or] at hc
    obtain ⟨h1, h2, h3, h4, h5⟩ := hc
    simp [sflLoop, h1, h2, h3, h4, h5]
  · intro st lit s hok
    unfold visitString
    rw [hok]
    simp [pushInstruction, Instruction.stackEffect, applyStackEffect]
  · rfl
  · decide

/-- Witness for C9: the escape equations applied at the closing-quote
tail, the illegal escape `\q`, and `visit_string` run on the concrete
literal from an empty compiler state. -/
theorem c9_string_literal_witness :
    (sflLoop ('\\' :: '\\' :: ['"']) = .ok ['\\'] ∧
      sflLoop ('\\' :: '"' :: ['"']) = .ok ['"'] ∧
      sflLoop ('\\' :: 'n' :: ['"']) = .ok ['\n'] ∧
      sflLoop ('\\' :: 'r' :: ['"']) = .ok ['\r'] ∧
      sflLoop ('\\' :: 't' :: ['"']) = .ok ['\t'])
    ∧ sflLoop ('\\' :: 'q' :: ['"']) = .error (.illegalEscapeSequence 'q')
    ∧ visitString ⟨emptyCompState, [], []⟩ ("\"a\\r\\nb\\\"c\"".data) =
        .ok ⟨(addConstant emptyCompState (.string (utf8Encode ("a\r\nb\"c".data)))).2,
          [none],
          [.constant (addConstant emptyCompState
            (.string (utf8Encode ("a\r\nb\"c".data)))).1]⟩ :=
  ⟨c9_string_literal.1 ['"'] [] rfl,
   c9_string_literal.2.1 'q' ['"'] (by decide),
   c9_string_literal.2.2.1 ⟨emptyCompState, [], []⟩ ("\"a\\r\\nb\\\"c\"".data)
     ("a\r\nb\"c".data) rfl⟩

/-! ### Codec lemmas for the round-trip -/

theorem Encodes.congr_bytes {α : Type} {p : ParserM α} {bs bs2 : List Nat} {a : α}
    (h : Encodes p bs a) (heq : bs = bs2) : Encodes p bs2 a :=
  heq ▸ h

theorem Encodes.bind {α β : Type} {p : ParserM α} {f : α → ParserM β} {bs bs2 : List Nat}
    {a : α} {b : β} (hp : Encodes p bs a) (hf : Encodes (f a) bs2 b) :
    Encodes (p >>= f) (bs ++ bs2) b := by
  intro r
  show pBind p f ((bs ++ bs2) ++ r) = some (b, r)
  rw [List.append_assoc]
  unfold pBind
  rw [hp (bs2 ++ r)]
  exact hf r

theorem encodes_pByte (b : Nat) : Encodes pByte [b] b :=
  fun _ => rfl

theorem encodes_pBeU16 (v : Nat) : Encodes pBeU16 (u16be v) (v % 65536) := by
  intro r
  have hstep : pBeU16 (u16be v ++ r) = some (v % 65536 / 256 * 256 + v % 256, r) := rfl
  rw [hstep]
  have harith : v % 65536 / 256 * 256 + v % 256 = v % 65536 := by omega
  rw [harith]

theorem encodes_pBeU16_lt {v : Nat} (h : v < 65536) : Encodes pBeU16 (u16be v) v := by
  have hv := encodes_pBeU16 v
  rwa [Nat.mod_eq_of_lt h] at hv

theorem encodes_pTag (t : List Nat) : Encodes (pTag t) t () := by
  induction t with
  | nil => intro r; rfl
  | cons c t ih =>
    intro r
    show pTag (c :: t) ((c :: t) ++ r) = some ((), r)
    simp only [List.cons_append]
    unfold pTag
    simp [ih r]

theorem encodes_pTake (bs : List Nat) : Encodes (pTake bs.length) bs bs := by
  intro r
  unfold pTake
  have h : bs.length ≤ (bs ++ r).length := by simp
  simp [h, List.take_left, List.drop_left]

theorem encodes_pCount {α β : Type} (p : ParserM β) (enc : α → List Nat) (f : α → β)
    (l : List α) (h : ∀ x ∈ l, Encodes p (enc x) (f x)) :
    Encodes (pCount l.length p) ((l.map enc).flatten) (l.map f) := by
  induction l with
  | nil => intro r; rfl
  | cons x t ih =>
    have hx := h x (by simp)
    have ht := ih (fun y hy => h y (by simp [hy]))
    have hcomp : Encodes (pCount (x :: t).length p)
        (enc x ++ ((t.map enc).flatten ++ [])) (f x :: t.map f) := by
      show Encodes (pCount (t.length + 1) p) _ _
      exact hx.bind (ht.bind (fun r => rfl))
    refine hcomp.congr_bytes ?_
    simp

theorem encodes_pNumber {text : List Nat} (hv : validNumberBytes text = true)
    (hlen : text.length < 65536) :
    Encodes pNumber (u16be text.length ++ text) text := by
  have h3 : Encodes (if validNumberBytes text then pPure text else pFail) [] text := by
    rw [if_pos hv]
    exact fun r => rfl
  have hcomp : Encodes pNumber (u16be text.length ++ (text ++ [])) text :=
    (encodes_pBeU16_lt hlen).bind ((encodes_pTake text).bind h3)
  exact hcomp.congr_bytes (by simp)

theorem encodes_pString {bytes : List Nat} (hv : isUtf8 bytes = true)
    (hlen : bytes.length < 65536) :
    Encodes pString (u16be bytes.length ++ bytes) bytes := by
  have h3 : Encodes (if isUtf8 bytes then pPure bytes else pFail) [] bytes := by
    rw [if_pos hv]
    exact fun r => rfl
  have hcomp : Encodes pString (u16be bytes.length ++ (bytes ++ [])) bytes :=
    (encodes_pBeU16_lt hlen).bind ((encodes_pTake bytes).bind h3)
  exact hcomp.congr_bytes (by simp)

theorem encodes_pFunction {arity : Nat} {body : List Nat} (ha : arity < 65536)
    (hlen : body.length < 65536) :
    Encodes pFunction (u16be arity ++ u16be body.length ++ body)
      (.function arity body) := by
  have hcomp : Encodes pFunction (u16be arity ++ (u16be body.length ++ (body ++ [])))
      (.function arity body) :=
    (encodes_pBeU16_lt ha).bind
      ((encodes_pBeU16_lt hlen).bind ((encodes_pTake body).bind (fun r => rfl)))
  exact hcomp.congr_bytes (by simp)

theorem encodes_constant_entry (c : CConstant) (h : constantWF c) :
    Encodes pConstantEntry (writeConstant c) (parsedOfConstant c) := by
  cases c with
  | number text =>
    obtain ⟨hv, hlen⟩ := h
    have hcomp : Encodes pConstantEntry ([0] ++ (u16be text.length ++ text ++ []))
        (parsedOfConstant (.number text)) :=
      (encodes_pByte 0).bind ((encodes_pNumber hv hlen).bind (fun r => rfl))
    exact hcomp.congr_bytes (by simp [writeConstant])
  | string bytes =>
    obtain ⟨hv, hlen⟩ := h
    have hcomp : Encodes pConstantEntry ([1] ++ (u16be bytes.length ++ bytes ++ []))
        (parsedOfConstant (.string bytes)) :=
      (encodes_pByte 1).bind ((encodes_pString hv hlen).bind (fun r => rfl))
    exact hcomp.congr_bytes (by simp [writeConstant])
  | function arity body =>
    obtain ⟨ha, hlen⟩ := h
    have hcomp : Encodes pConstantEntry
        ([2] ++ (u16be arity ++ u16be (encodeBody body).length ++ encodeBody body))
        (parsedOfConstant (.function arity body)) :=
      (encodes_pByte 2).bind (encodes_pFunction ha hlen)
    exact hcomp.congr_bytes (by simp [writeConstant])

theorem getStringConstant_map (m : CModule) (i : Nat) :
    getStringConstant (m.constants.map parsedOfConstant) i = stringAt m i := by
  unfold getStringConstant stringAt
  rw [List.get?_map]
  cases m.constants.get? i with
  | none => rfl
  | some c => cases c <;> rfl

theorem encodes_global_entry (m : CModule) (k v : Nat) (hk : k < 65536) (hv : v < 65536)
    (hs : (stringAt m k).isSome = true) :
    Encodes (pGlobal (m.constants.map parsedOfConstant)) (u16be k ++ u16be v)
      ((stringAt m k).getD [], v) := by
  obtain ⟨s, hsome⟩ := Option.isSome_iff_exists.mp hs
  have hgsc : getStringConstant (m.constants.map parsedOfConstant) k = some s := by
    rw [getStringConstant_map, hsome]
  have h3 : Encodes
      (match getStringConstant (m.constants.map parsedOfConstant) k with
        | some s2 => pPure (s2, v)
        | none => pFail) [] ((stringAt m k).getD [], v) := by
    rw [hgsc, hsome]
    exact fun r => rfl
  exact (encodes_pBeU16_lt hk).bind ((encodes_pBeU16_lt hv).bind h3)

theorem encodes_struct_entry (m : CModule) (k : Nat) (stp : StructType) (hk : k < 65536)
    (hs : (stringAt m k).isSome = true) (hwf : structWF m stp) :
    Encodes (pStructEntry (m.constants.map parsedOfConstant)) (writeStructType k stp)
      ((stringAt m k).getD [], parsedOfStruct m stp) := by
  obtain ⟨s, hsome⟩ := Option.isSome_iff_exists.mp hs
  have hgsc : getStringConstant (m.constants.map parsedOfConstant) k = some s := by
    rw [getStringConstant_map, hsome]
  cases stp with
  | empty =>
    have hrest : Encodes
        (match getStringConstant (m.constants.map parsedOfConstant) k with
          | none => pFail
          | some name => do
            let t ← pByte
            match t with
            | 0 => pPure (name, PStruct.empty)
            | 1 => do
              let count ← pBeU16
              pPure (name, PStruct.positional count)
            | 2 => do
              let len ← pBeU16
              let members ← pCount len (do
                let memberIdx ← pBeU16
                match getStringConstant (m.constants.map parsedOfConstant) memberIdx with
                | some mm => pPure mm
                | none => pFail)
              pPure (name, PStruct.named members)
            | _ => pFail) [0] ((stringAt m k).getD [], PStruct.empty) := by
      rw [hgsc, hsome]
      exact (encodes_pByte 0).bind (fun r => rfl)
    have hcomp : Encodes (pStructEntry (m.constants.map parsedOfConstant))
        (u16be k ++ [0]) ((stringAt m k).getD [], PStruct.empty) :=
      (encodes_pBeU16_lt hk).bind hrest
    exact hcomp.congr_bytes (by simp [writeStructType])
  | positional count =>
    have hrest : Encodes
        (match getStringConstant (m.constants.map parsedOfConstant) k with
          | none => pFail
          | some name => do
            let t ← pByte
            match t with
            | 0 => pPure (name, PStruct.empty)
            | 1 => do
              let count2 ← pBeU16
              pPure (name, PStruct.positional count2)
            | 2 => do
              let len ← pBeU16
              let members ← pCount len (do
                let memberIdx ← pBeU16
                match getStringConstant (m.constants.map parsedOfConstant) memberIdx with
                | some mm => pPure mm
                | none => pFail)
              pPure (name, PStruct.named members)
            | _ => pFail) ([1] ++ u16be count)
        ((stringAt m k).getD [], PStruct.positional count) := by
      rw [hgsc, hsome]
      exact (encodes_pByte 1).bind ((encodes_pBeU16_lt hwf).bind (fun r => rfl))
    have hcomp : Encodes (pStructEntry (m.constants.map parsedOfConstant))
        (u16be k ++ ([1] ++ u16be count)) ((stringAt m k).getD [], PStruct.positional count) :=
      (encodes_pBeU16_lt hk).bind hrest
    exact hcomp.congr_bytes (by simp [writeStructType])
  | named members =>
    obtain ⟨hmlen, hmwf⟩ := hwf
    have hmembers : Encodes
        (pCount members.length (do
          let memberIdx ← pBeU16
          match getStringConstant (m.constants.map parsedOfConstant) memberIdx with
          | some mm => pPure mm
          | none => pFail))
        ((members.map u16be).flatten)
        (members.map (fun i => (stringAt m i).getD [])) := by
      refine encodes_pCount _ u16be (fun i => (stringAt m i).getD []) members ?_
      intro i hi
      obtain ⟨hi16, hisome⟩ := hmwf i hi
      obtain ⟨si, hsi⟩ := Option.isSome_iff_exists.mp hisome
      have hgi : getStringConstant (m.constants.map parsedOfConstant) i = some si := by
        rw [getStringConstant_map, hsi]
      have h3 : Encodes
          (match getStringConstant (m.constants.map parsedOfConstant) i with
            | some mm => pPure mm
            | none => pFail) [] ((stringAt m i).getD []) := by
        rw [hgi, hsi]
        exact fun r => rfl
      have hcomp : Encodes
          (do
            let memberIdx ← pBeU16
            match getStringConstant (m.constants.map parsedOfConstant) memberIdx with
            | some mm => pPure mm
            | none => pFail)
          (u16be i ++ []) ((stringAt m i).getD []) :=
        (encodes_pBeU16_lt hi16).bind h3
      exact hcomp.congr_bytes (by simp)
    have hrest : Encodes
        (match getStringConstant (m.constants.map parsedOfConstant) k with
          | none => pFail
          | some name => do
            let t ← pByte
            match t with
            | 0 => pPure (name, PStruct.empty)
            | 1 => do
              let count2 ← pBeU16
              pPure (name, PStruct.positional count2)
            | 2 => do
              let len ← pBeU16
              let mlist ← pCount len (do
                let memberIdx ← pBeU16
                match getStringConstant (m.constants.map parsedOfConstant) memberIdx with
                | some mm => pPure mm
                | none => pFail)
              pPure (name, PStruct.named mlist)
            | _ => pFail)
        ([2] ++ u16be members.length ++ (members.map u16be).flatten)
        ((stringAt m k).getD [], parsedOfStruct m (.named members)) := by
      rw [hgsc, hsome]
      have hcomp : Encodes
          (do
            let t ← pByte
            match t with
            | 0 => pPure ((s : List Nat), PStruct.empty)
            | 1 => do
              let count2 ← pBeU16
              pPure ((s : List Nat), PStruct.positional count2)
            | 2 => do
              let len ← pBeU16
              let mlist ← pCount len (do
                let memberIdx ← pBeU16
                match getStringConstant (m.constants.map parsedOfConstant) memberIdx with
                | some mm => pPure mm
                | none => pFail)
              pPure ((s : List Nat), PStruct.named mlist)
            | _ => pFail)
          ([2] ++ (u16be members.length ++ ((members.map u16be).flatten ++ [])))
          ((s : List Nat), parsedOfStruct m (.named members)) :=
        (encodes_pByte 2).bind
          ((encodes_pBeU16_lt hmlen).bind (hmembers.bind (fun r => rfl)))
      exact hcomp.congr_bytes (by simp)
    have hcomp : Encodes (pStructEntry (m.constants.map parsedOfConstant))
        (u16be k ++ ([2] ++ u16be members.length ++ (members.map u16be).flatten))
        ((stringAt m k).getD [], parsedOfStruct m (.named members)) :=
      (encodes_pBeU16_lt hk).bind hrest
    exact hcomp.congr_bytes (by simp [writeStructType])

theorem writeConstantList_eq (l : List CConstant) :
    writeConstantList l = (l.map writeConstant).flatten := by
  induction l with
  | nil => rfl
  | cons c t ih => simp [writeConstantList, ih]

theorem writeGlobalList_eq (l : List (Nat × Nat)) :
    writeGlobalList l = (l.map (fun p => u16be p.1 ++ u16be p.2)).flatten := by
  induction l with
  | nil => rfl
  | cons p t ih =>
    cases p
    simp [writeGlobalList, ih]

theorem writeStructList_eq (l : List (Nat × StructType)) :
    writeStructList l = (l.map (fun p => writeStructType p.1 p.2)).flatten := by
  induction l with
  | nil => rfl
  | cons p t ih =>
    cases p
    simp [writeStructList, ih]

/-- C1: for every well-formed compiler module (name indices of globals and
structs resolve to string constants — which the compiler guarantees by
interning every name before recording it — and all counts, lengths and
arities fit the format's 16-bit fields), parsing the written bytes
succeeds and yields exactly: the same constants in the same order (with
each function's body the writer's encoding, byte for byte), the global
bindings with their names resolved to the same strings and the same value
indices, and the struct descriptors likewise. -/
theorem c1_roundtrip (m : CModule) (h : moduleWF m) :
    parseBytecode (writeBytecode m) =
      some ⟨m.constants.map parsedOfConstant,
        m.globals.map (fun p => ((stringAt m p.1).getD [], p.2)),
        m.structTypes.map (fun p => ((stringAt m p.1).getD [], parsedOfStruct m p.2))⟩ := by
  obtain ⟨hclen, hcwf, hglen, hgwf, hslen, hswf⟩ := h
  have hconstants := encodes_pCount pConstantEntry writeConstant parsedOfConstant
    m.constants (fun c hc => encodes_constant_entry c (hcwf c hc))
  have hglobals := encodes_pCount (pGlobal (m.constants.map parsedOfConstant))
    (fun p => u16be p.1 ++ u16be p.2) (fun p => ((stringAt m p.1).getD [], p.2))
    m.globals (fun p hp => by
      obtain ⟨h1, h2, h3⟩ := hgwf p hp
      exact encodes_global_entry m p.1 p.2 h1 h2 h3)
  have hstructs := encodes_pCount (pStructEntry (m.constants.map parsedOfConstant))
    (fun p => writeStructType p.1 p.2)
    (fun p => ((stringAt m p.1).getD [], parsedOfStruct m p.2))
    m.structTypes (fun p hp => by
      obtain ⟨h1, h2, h3⟩ := hswf p hp
      exact encodes_struct_entry m p.1 p.2 h1 h2 h3)
  have hmod : Encodes pModule
      (asciiBytes "sprachli" ++ (u16be 0 ++ (u16be m.constants.length ++
        ((m.constants.map writeConstant).flatten ++ (u16be m.globals.length ++
        ((m.globals.map (fun p => u16be p.1 ++ u16be p.2)).flatten ++
        (u16be m.structTypes.length ++
        ((m.structTypes.map (fun p => writeStructType p.1 p.2)).flatten ++ []))))))))
      ⟨m.constants.map parsedOfConstant,
        m.globals.map (fun p => ((stringAt m p.1).getD [], p.2)),
        m.structTypes.map (fun p => ((stringAt m p.1).getD [], parsedOfStruct m p.2))⟩ :=
    (encodes_pTag (asciiBytes "sprachli")).bind
      ((encodes_pBeU16_lt (by omega)).bind
        ((encodes_pBeU16_lt hclen).bind
          (hconstants.bind
            ((encodes_pBeU16_lt hglen).bind
              (hglobals.bind
                ((encodes_pBeU16_lt hslen).bind
                  (hstructs.bind (fun r => rfl))))))))
  have hkey : pModule (writeBytecode m) =
      some (⟨m.constants.map parsedOfConstant,
        m.globals.map (fun p => ((stringAt m p.1).getD [], p.2)),
        m.structTypes.map (fun p => ((stringAt m p.1).getD [], parsedOfStruct m p.2))⟩,
        []) := by
    have hb : writeBytecode m =
        (asciiBytes "sprachli" ++ (u16be 0 ++ (u16be m.constants.length ++
          ((m.constants.map writeConstant).flatten ++ (u16be m.globals.length ++
          ((m.globals.map (fun p => u16be p.1 ++ u16be p.2)).flatten ++
          (u16be m.structTypes.length ++
          ((m.structTypes.map (fun p => writeStructType p.1 p.2)).flatten ++ [])))))))) ++ [] := by
      simp [writeBytecode, writeHeader, writeConstantList_eq, writeGlobalList_eq,
        writeStructList_eq, List.append_assoc]
    rw [hb]
    exact hmod []
  unfold parseBytecode
  rw [hkey]

/-- Witness for C1: the concrete module holding the number 42, the string
"main", and a one-instruction function bound as the global `main`, with an
empty struct named "main"; its bytes parse back to the expected module. -/
theorem c1_roundtrip_witness :
    parseBytecode (writeBytecode
      ⟨[.number (asciiBytes "42"), .string (asciiBytes "main"),
        .function 0 [.constant 0]],
       [(1, 2)], [(1, .empty)]⟩) =
      some ⟨[.number (asciiBytes "42"), .string (asciiBytes "main"),
          .function 0 (encodeBody [.constant 0])],
        [(asciiBytes "main", 2)], [(asciiBytes "main", .empty)]⟩ :=
  c1_roundtrip
    ⟨[.number (asciiBytes "42"), .string (asciiBytes "main"),
      .function 0 [.constant 0]],
     [(1, 2)], [(1, .empty)]⟩ (by decide)

end Sprachli
